import Mathlib

/-!
# golang-watcherclient: token lifecycle, session registry and request retry

A shallow embedding of `watcherclient/auth.go`, of the request path, the configuration
accessors and the version query of `watcherclient/client.go`, and of `buildQueryString`
of `watcherclient/utils.go`.

* Go `error` values are the inductive `GoError`; a Go result `(T, error)` is a pair
  whose second component is `Option GoError` (`none` is the nil error).
* Mutable receivers are passed and returned explicitly.
* Everything outside the package (the identity service behind gophercloud, the HTTP
  transport, the wall clock) is an `Env` of scripted replies; the `World` counts how
  many of each reply have been consumed, so that the number of identity calls and of
  HTTP sends made by an operation can be read off afterwards.
-/

namespace Watcherclient

/-! ## Errors -/

/-- The `*APIError` struct of client.go. -/
structure APIError where
  StatusCode : Int
  Message : String
  URL : String
  Method : String
deriving DecidableEq, Repr

/-- Go error values: `msg s` is `fmt.Errorf(s)` without a wrapped cause, `wrap p e` is
`fmt.Errorf(p + "%w", e)`, `api e` is a `*APIError`. -/
inductive GoError where
  | msg (text : String)
  | wrap (context : String) (cause : GoError)
  | api (e : APIError)
deriving DecidableEq, Repr

/-! ## Time (package time of the Go standard library) -/

/-- Go `time.Second`; a `time.Duration` is a signed count of nanoseconds, here an `Int`. -/
def Second : Int := 1000000000

/-- Go `time.Minute`. -/
def Minute : Int := 60 * Second

/-- The smallest `time.Duration` (`-1 << 63`). -/
def minDuration : Int := -9223372036854775808

/-- The largest `time.Duration` (`1<<63 - 1`). -/
def maxDuration : Int := 9223372036854775807

/-- Go `time.Time` as the number of nanoseconds since the zero time. -/
structure Time where
  nanos : Int
deriving DecidableEq, Repr

namespace Time

/-- Go `Time.IsZero`: the zero time instant. -/
def IsZero (t : Time) : Bool := t.nanos == 0

/-- Go `Time.After`: `t.After(u)` reports whether `t` is strictly after `u`. -/
def After (t u : Time) : Bool := decide (u.nanos < t.nanos)

/-- Go `Time.Sub`: the duration `t-u`, saturated to the range of `time.Duration`. -/
def Sub (t u : Time) : Int :=
  let d := t.nanos - u.nanos
  if d < minDuration then minDuration
  else if maxDuration < d then maxDuration
  else d

end Time

/-- Go `time.Until(t)` evaluated when the clock reads `now`: `t.Sub(now)`. -/
def Until (now t : Time) : Int := t.Sub now

/-! ## Credentials -/

/-- The fields of `gophercloud.AuthScope` read by this package. -/
structure AuthScope where
  ProjectID : String := ""
  ProjectName : String := ""
  DomainID : String := ""
  DomainName : String := ""
  System : Bool := false
deriving DecidableEq, Repr

/-- The `AuthOptions` struct of auth.go; `Scope` is a pointer, `none` is nil. -/
structure AuthOptions where
  IdentityEndpoint : String := ""
  Username : String := ""
  Password : String := ""
  UserID : String := ""
  ApplicationCredentialID : String := ""
  ApplicationCredentialName : String := ""
  ApplicationCredentialSecret : String := ""
  DomainID : String := ""
  DomainName : String := ""
  TenantID : String := ""
  TenantName : String := ""
  AllowReauth : Bool := false
  TokenID : String := ""
  Scope : Option AuthScope := none
deriving DecidableEq, Repr

/-! ## The outside world -/

/-- What this package reads of a `*gophercloud.ProviderClient`: its `TokenID` and the
result of its `EndpointLocator` for `EndpointOpts{Type: "infra-optim"}`. -/
structure ProviderClient where
  TokenID : String
  EndpointLocator : Except GoError String

/-- The `ExpiresAt` field of the token details returned by `tokens.Get(...).Extract()`. -/
structure TokenDetails where
  ExpiresAt : Time

/-- Replies of the identity service to one `Authenticate` round trip. -/
structure IdentityReply where
  /-- Result of `openstack.AuthenticatedClient(ctx, authOpts)`. -/
  AuthenticatedClient : Except GoError ProviderClient
  /-- Result of `openstack.NewIdentityV3(provider, EndpointOpts{})`. -/
  NewIdentityV3 : Except GoError Unit
  /-- Result of `tokens.Get(ctx, identityClient, token).Extract()`. -/
  TokensGet : Except GoError TokenDetails

/-- An HTTP response as read by `doRequest`: status code and the bytes `io.ReadAll`
yields from its body. -/
structure Response where
  StatusCode : Int
  Body : String
deriving DecidableEq, Repr

/-- An outgoing HTTP request as built by `doRequest`. -/
structure Request where
  Method : String
  /-- The text of `req.URL.String()`. -/
  URL : String
  /-- Header `X-Auth-Token`. -/
  XAuthToken : String
  /-- Header `OpenStack-API-Version`. -/
  OpenStackAPIVersion : String
  /-- The marshalled JSON body, `none` when the body reader is nil. -/
  Body : Option String
deriving DecidableEq, Repr

/-- The scripted environment. Replies are indexed by how many of their kind were
consumed before. -/
structure Env where
  /-- Reply of the identity service to the `n`-th authentication with these options. -/
  identity : Nat → AuthOptions → IdentityReply
  /-- Reading of `time.Now()` at the `n`-th look at the clock. -/
  clock : Nat → Time
  /-- Result of `http.NewRequest(method, url, body)`: the request URL as text, or the error. -/
  NewRequest : String → String → Except GoError String
  /-- Result of `httpClient.Do(req)` for the `n`-th request sent. -/
  Do : Nat → Request → Except GoError Response

/-- Effects performed so far. -/
structure World where
  /-- Calls of `Authenticator.Authenticate` (each makes one identity exchange). -/
  authCalls : Nat := 0
  /-- Calls of `Authenticator.Reauth`. -/
  reauthCalls : Nat := 0
  /-- Readings of the clock. -/
  clockReads : Nat := 0
  /-- Requests handed to `httpClient.Do`, oldest first. -/
  sent : List Request := []
deriving DecidableEq, Repr

/-! ## Authenticator -/

/-- The `Authenticator` struct of auth.go (the mutex is not modelled: calls are
sequential). `authOptions` is the non-nil pointer stored by `NewAuthenticator`.
`provider` is a pointer, `none` is nil; only the token id of the provider is kept. -/
structure Authenticator where
  authOptions : AuthOptions
  provider : Option String := none
  token : String := ""
  tokenExpiry : Time := ⟨0⟩
  endpoint : String := ""
  autoReauth : Bool := false
deriving DecidableEq, Repr

namespace Authenticator

/-- `updateTokenExpiry`: introspects the token and stores its expiry. -/
def updateTokenExpiry (reply : IdentityReply) (a : Authenticator) :
    Option GoError × Authenticator :=
  match a.provider with
  | none => (some (.msg "provider not initialized"), a)
  | some _ =>
    match reply.NewIdentityV3 with
    | .error err => (some (.wrap "failed to create identity client: " err), a)
    | .ok _ =>
      match reply.TokensGet with
      | .error err => (some (.wrap "failed to get token details: " err), a)
      | .ok tokenDetails => (none, { a with tokenExpiry := tokenDetails.ExpiresAt })

/-- `Authenticate`: one authentication round trip against Keystone. -/
def Authenticate (env : Env) (a : Authenticator) (w : World) :
    Option GoError × Authenticator × World :=
  let reply := env.identity w.authCalls a.authOptions
  let w := { w with authCalls := w.authCalls + 1 }
  match reply.AuthenticatedClient with
  | .error err => (some (.wrap "failed to authenticate: " err), a, w)
  | .ok provider =>
    let a := { a with provider := some provider.TokenID }
    let a := { a with token := provider.TokenID }
    -- the error of updateTokenExpiry is dropped
    let a := (updateTokenExpiry reply a).2
    match provider.EndpointLocator with
    | .error err => (some (.wrap "failed to locate Watcher endpoint: " err), a, w)
    | .ok endpoint => (none, { a with endpoint := endpoint }, w)

/-- `GetToken`: the cached token, refreshed first when it expires within five minutes. -/
def GetToken (env : Env) (a : Authenticator) (w : World) :
    (String × Option GoError) × Authenticator × World :=
  let token := a.token
  let expiry := a.tokenExpiry
  if expiry.IsZero then ((token, none), a, w)
  else
    let now := env.clock w.clockReads
    let w := { w with clockReads := w.clockReads + 1 }
    if Until now expiry < 5 * Minute then
      if a.autoReauth then
        match a.Authenticate env w with
        | (some err, a, w) => (("", some (.wrap "failed to re-authenticate: " err)), a, w)
        | (none, a, w) => ((a.token, none), a, w)
      else
        (("", some (.msg "token expired and auto-reauth is disabled")), a, w)
    else ((token, none), a, w)

/-- `GetEndpoint`. -/
def GetEndpoint (a : Authenticator) : String := a.endpoint

/-- `IsTokenExpired`: false for an unknown expiry, otherwise whether now is after it. -/
def IsTokenExpired (env : Env) (a : Authenticator) (w : World) : Bool × World :=
  if a.tokenExpiry.IsZero then (false, w)
  else
    ((env.clock w.clockReads).After a.tokenExpiry,
      { w with clockReads := w.clockReads + 1 })

/-- `GetTokenExpiry`. -/
def GetTokenExpiry (a : Authenticator) : Time := a.tokenExpiry

/-- `Reauth`: forces re-authentication. -/
def Reauth (env : Env) (a : Authenticator) (w : World) :
    Option GoError × Authenticator × World :=
  a.Authenticate env { w with reauthCalls := w.reauthCalls + 1 }

end Authenticator

/-- `NewAuthenticator`: checks the options, then performs the initial authentication. -/
def NewAuthenticator (env : Env) (opts : Option AuthOptions) (w : World) :
    (Option Authenticator × Option GoError) × World :=
  match opts with
  | none => ((none, some (.msg "auth options cannot be nil")), w)
  | some opts =>
    -- Validate required fields
    if opts.IdentityEndpoint = "" then
      ((none, some (.msg "identity endpoint is required")), w)
    else
      let auth : Authenticator := { authOptions := opts, autoReauth := opts.AllowReauth }
      -- Perform initial authentication
      match auth.Authenticate env w with
      | (some err, _, w) => ((none, some (.wrap "initial authentication failed: " err)), w)
      | (none, auth, w) => ((some auth, none), w)

/-! ## TokenAuthenticator -/

/-- The `TokenAuthenticator` struct of auth.go. -/
structure TokenAuthenticator where
  endpoint : String
  token : String
deriving DecidableEq, Repr

/-- `NewTokenAuthenticator`. -/
def NewTokenAuthenticator (endpoint token : String) : TokenAuthenticator :=
  { endpoint := endpoint, token := token }

namespace TokenAuthenticator

/-- `TokenAuthenticator.GetToken`: the token, or an error when it is empty. -/
def GetToken (t : TokenAuthenticator) : String × Option GoError :=
  if t.token = "" then ("", some (.msg "token is empty"))
  else (t.token, none)

/-- `TokenAuthenticator.GetEndpoint`. -/
def GetEndpoint (t : TokenAuthenticator) : String := t.endpoint

end TokenAuthenticator

/-! ## Validation of options -/

/-- `ValidateAuthOptions`: `none` is the nil error. -/
def ValidateAuthOptions (opts : Option AuthOptions) : Option GoError :=
  match opts with
  | none => some (.msg "auth options cannot be nil")
  | some opts =>
    if opts.IdentityEndpoint = "" then some (.msg "identity endpoint is required")
    else
      -- Check if we have valid authentication method
      let hasPassword := opts.Username != "" && opts.Password != ""
      let hasToken := opts.TokenID != ""
      let hasAppCred :=
        opts.ApplicationCredentialID != "" && opts.ApplicationCredentialSecret != ""
      let hasAppCredName :=
        opts.ApplicationCredentialName != "" && opts.ApplicationCredentialSecret != ""
      if !hasPassword && !hasToken && !hasAppCred && !hasAppCredName then
        some (.msg "no valid authentication method provided")
      else
        -- Validate scope
        match opts.Scope with
        | some scope =>
          if scope.ProjectID == "" && scope.ProjectName == "" &&
              scope.DomainID == "" && scope.DomainName == "" then
            some (.msg "scope must specify either project or domain")
          else none
        | none => none

/-! ## SessionManager -/

/-- A `*Authenticator` held in the registry: `none` is the nil pointer, `some n` the
address of an instance. Two references are the same instance when they are equal. -/
abbrev AuthRef := Option Nat

/-- The `SessionManager` struct of auth.go: a Go map from session name to
`*Authenticator`, kept as an association list without duplicate keys. The map is the
one allocated by `NewSessionManager`, never nil (the mutex is not modelled). -/
structure SessionManager where
  sessions : AList (fun _ : String => AuthRef)

/-- `NewSessionManager`: an empty registry. -/
def NewSessionManager : SessionManager := { sessions := ∅ }

namespace SessionManager

/-- `AddSession`: `sm.sessions[name] = auth`. -/
def AddSession (sm : SessionManager) (name : String) (auth : AuthRef) : SessionManager :=
  { sessions := sm.sessions.insert name auth }

/-- `GetSession`: the registered reference, or an error when the name is absent. -/
def GetSession (sm : SessionManager) (name : String) : AuthRef × Option GoError :=
  match sm.sessions.lookup name with
  | none => (none, some (.msg ("session '" ++ name ++ "' not found")))
  | some auth => (auth, none)

/-- `RemoveSession`: `delete(sm.sessions, name)`. -/
def RemoveSession (sm : SessionManager) (name : String) : SessionManager :=
  { sessions := sm.sessions.erase name }

/-- `ListSessions`: the registered names (Go leaves the order unspecified). -/
def ListSessions (sm : SessionManager) : List String := sm.sessions.keys

end SessionManager

/-- The instance of `Authenticator` stored at each address. -/
abbrev Heap := Nat → Authenticator

/-- In the words of the specification: the cached expiry is known (non-zero) and
strictly in the past at the time `now`. -/
def Authenticator.expiredAt (a : Authenticator) (now : Time) : Bool :=
  decide (a.tokenExpiry.nanos ≠ 0 ∧ a.tokenExpiry.nanos < now.nanos)

/-- In the words of the specification, for a registry entry: its authenticator is
expired at the time `now` (a nil reference has no expiry). -/
def entryExpiredAt (heap : Heap) (now : Time) (entry : Sigma (fun _ : String => AuthRef)) :
    Bool :=
  match entry.2 with
  | some addr => (heap addr).expiredAt now
  | none => false

namespace SessionManager

/-- One iteration of the loop of `CleanupExpiredSessions` on the entry `(name, auth)`:
`if auth.IsTokenExpired() { delete(sm.sessions, name); removed++ }`. The accumulator is
`(removed, sm, world)`; `none` is the panic of calling `IsTokenExpired` on a nil
pointer. -/
def sweepEntry (env : Env) (heap : Heap) (acc : Nat × SessionManager × World)
    (entry : Sigma (fun _ : String => AuthRef)) : Option (Nat × SessionManager × World) :=
  match entry.2 with
  | none => none
  | some addr =>
    match (heap addr).IsTokenExpired env acc.2.2 with
    | (true, w) => some (acc.1 + 1, acc.2.1.RemoveSession entry.1, w)
    | (false, w) => some (acc.1, acc.2.1, w)

/-- `CleanupExpiredSessions`: ranges over the entries present at the start (in the order
in which the registry happens to hold them), deletes the expired ones and counts them. -/
def CleanupExpiredSessions (env : Env) (heap : Heap) (sm : SessionManager) (w : World) :
    Option (Nat × SessionManager × World) :=
  sm.sessions.entries.foldlM (sweepEntry env heap) (0, sm, w)

end SessionManager

/-- A call made on a session registry: `AddSession(name, auth)` or `RemoveSession(name)`. -/
inductive SessionOp where
  | add (name : String) (auth : AuthRef)
  | remove (name : String)
deriving DecidableEq, Repr

namespace SessionOp

/-- The session name a call is about. -/
def name : SessionOp → String
  | .add n _ => n
  | .remove n => n

/-- Whether the call is an `AddSession`. -/
def isAdd : SessionOp → Bool
  | .add _ _ => true
  | .remove _ => false

/-- Performs the call on a registry. -/
def apply (sm : SessionManager) : SessionOp → SessionManager
  | .add n auth => sm.AddSession n auth
  | .remove n => sm.RemoveSession n

end SessionOp

/-- The registry after a sequence of calls (oldest first) on a fresh `SessionManager`. -/
def runSessionOps (ops : List SessionOp) : SessionManager :=
  ops.foldl SessionOp.apply NewSessionManager

/-- In the words of the specification: `name` has been added and not since removed,
that is, the last call about `name` (if any) is an `AddSession`. -/
def addedNotRemoved (ops : List SessionOp) (name : String) : Bool :=
  ops.foldl (fun live op => if op.name = name then op.isAdd else live) false

/-- In the words of the specification: the distinct names added and not since removed. -/
def liveNames (ops : List SessionOp) : List String :=
  ((ops.map SessionOp.name).dedup).filter (addedNotRemoved ops)

/-! ## Client -/

/-- `DefaultAPIVersion`. -/
def DefaultAPIVersion : String := "v1"

/-- `DefaultTimeout`: thirty seconds. -/
def DefaultTimeout : Int := 30 * Second

/-- The value held in the `authenticator` interface field of `Client`: a
`*Authenticator`, a `*TokenAuthenticator`, or any other implementation of the
interface, known only by what its `GetToken` and `GetEndpoint` return. -/
inductive TokenProvider where
  | authenticator (a : Authenticator)
  | tokenAuthenticator (t : TokenAuthenticator)
  | other (token : String) (err : Option GoError) (endpoint : String)
deriving DecidableEq, Repr

namespace TokenProvider

/-- Dynamic dispatch of `GetToken` on the interface value. -/
def GetToken (env : Env) (p : TokenProvider) (w : World) :
    (String × Option GoError) × TokenProvider × World :=
  match p with
  | .authenticator a =>
    match a.GetToken env w with
    | (r, a, w) => (r, .authenticator a, w)
  | .tokenAuthenticator t => (t.GetToken, p, w)
  | .other token err _ => ((token, err), p, w)

/-- Dynamic dispatch of `GetEndpoint` on the interface value. -/
def GetEndpoint (p : TokenProvider) : String :=
  match p with
  | .authenticator a => a.GetEndpoint
  | .tokenAuthenticator t => t.GetEndpoint
  | .other _ _ endpoint => endpoint

end TokenProvider

/-- The `Timeout` field of `*http.Client`. -/
structure HTTPClient where
  Timeout : Int
deriving DecidableEq, Repr

/-- The `Client` struct of client.go. -/
structure Client where
  endpoint : String
  authenticator : TokenProvider
  httpClient : HTTPClient
  apiVersion : String
deriving DecidableEq, Repr

/-- The `ClientOptions` struct of client.go. -/
structure ClientOptions where
  AuthURL : String := ""
  Username : String := ""
  Password : String := ""
  ProjectName : String := ""
  ProjectDomainID : String := ""
  UserDomainID : String := ""
  Region : String := ""
  Timeout : Int := 0
  AllowReauth : Bool := false
deriving DecidableEq, Repr

/-- The `AuthOptions` that `NewClient` builds from its `ClientOptions`. -/
def clientAuthOptions (opts : ClientOptions) : AuthOptions :=
  { IdentityEndpoint := opts.AuthURL,
    Username := opts.Username,
    Password := opts.Password,
    DomainID := opts.UserDomainID,
    AllowReauth := opts.AllowReauth,
    Scope := some { ProjectName := opts.ProjectName, DomainID := opts.ProjectDomainID } }

/-- `NewClient`: validates the options, constructs the authenticator, binds a client. -/
def NewClient (env : Env) (opts : ClientOptions) (w : World) :
    (Option Client × Option GoError) × World :=
  let opts := if opts.Timeout = 0 then { opts with Timeout := DefaultTimeout } else opts
  -- Build authentication options
  let authOpts := clientAuthOptions opts
  -- Validate auth options
  match ValidateAuthOptions (some authOpts) with
  | some err => ((none, some (.wrap "invalid auth options: " err)), w)
  | none =>
    -- Create authenticator
    match NewAuthenticator env (some authOpts) w with
    | ((_, some err), w) => ((none, some (.wrap "failed to create authenticator: " err)), w)
    -- NewAuthenticator never returns a nil authenticator with a nil error
    | ((none, none), w) => ((none, some (.msg "panic: nil pointer dereference")), w)
    | ((some auth, none), w) =>
      ((some { endpoint := auth.GetEndpoint ++ "/" ++ DefaultAPIVersion,
               authenticator := .authenticator auth,
               httpClient := { Timeout := opts.Timeout },
               apiVersion := DefaultAPIVersion }, none), w)

/-- `NewClientWithToken`. -/
def NewClientWithToken (endpoint token : String) : Client :=
  { endpoint := endpoint ++ "/" ++ DefaultAPIVersion,
    authenticator := .tokenAuthenticator (NewTokenAuthenticator endpoint token),
    httpClient := { Timeout := DefaultTimeout },
    apiVersion := DefaultAPIVersion }

/-- `NewClientWithAuthenticator`. -/
def NewClientWithAuthenticator (auth : TokenProvider) : Client :=
  { endpoint := auth.GetEndpoint ++ "/" ++ DefaultAPIVersion,
    authenticator := auth,
    httpClient := { Timeout := DefaultTimeout },
    apiVersion := DefaultAPIVersion }

/-- A request body handed to `doRequest`, together with what `json.Marshal` makes of it. -/
structure Body where
  Marshal : Except GoError String

/-- What one pass through the body of `doRequest` ends in: a `return` of
`(*http.Response, error)`, or the recursive call `c.doRequest(method, path, body)`. -/
inductive Outcome where
  | returns (resp : Option Response) (err : Option GoError)
  | retry
deriving DecidableEq, Repr

/-- The body reader built by `doRequest`: nil for a nil body, otherwise the bytes of
`json.Marshal(body)`, or its error. -/
def marshalBody (body : Option Body) : Except GoError (Option String) :=
  match body with
  | none => .ok none
  | some b =>
    match b.Marshal with
    | .error err => .error err
    | .ok jsonData => .ok (some jsonData)

namespace Client

/-- One pass through the body of `doRequest`, up to its `return` or its recursive call. -/
def doRequestPass (env : Env) (c : Client) (w : World) (method path : String)
    (body : Option Body) : Outcome × Client × World :=
  -- Get current valid token
  match c.authenticator.GetToken env w with
  | ((_, some err), p, w) =>
    (.returns none (some (.wrap "failed to get valid token: " err)),
      { c with authenticator := p }, w)
  | ((token, none), p, w) =>
    let c := { c with authenticator := p }
    match marshalBody body with
    | .error err => (.returns none (some (.wrap "failed to marshal request body: " err)), c, w)
    | .ok bodyReader =>
      match env.NewRequest method (c.endpoint ++ path) with
      | .error err => (.returns none (some (.wrap "failed to create request: " err)), c, w)
      | .ok url =>
        let req : Request :=
          { Method := method, URL := url, XAuthToken := token,
            OpenStackAPIVersion := "infra-optim " ++ c.apiVersion, Body := bodyReader }
        let reply := env.Do w.sent.length req
        let w := { w with sent := w.sent ++ [req] }
        match reply with
        | .error err => (.returns none (some (.wrap "request failed: " err)), c, w)
        | .ok resp =>
          -- Handle authentication errors
          if resp.StatusCode = 401 then
            match c.authenticator with
            | .authenticator auth =>
              if auth.autoReauth then
                match auth.Reauth env w with
                | (some err, auth, w) =>
                  (.returns none (some (.wrap "re-authentication failed: " err)),
                    { c with authenticator := .authenticator auth }, w)
                | (none, auth, w) =>
                  -- Retry the request with new token
                  (.retry, { c with authenticator := .authenticator auth }, w)
              else
                (.returns none
                  (some (.msg "authentication failed: token expired or invalid")), c, w)
            | _ =>
              (.returns none
                (some (.msg "authentication failed: token expired or invalid")), c, w)
          else if resp.StatusCode < 200 ∨ resp.StatusCode ≥ 300 then
            (.returns none
              (some (.api { StatusCode := resp.StatusCode, Message := resp.Body,
                            URL := url, Method := method })), c, w)
          else (.returns (some resp) none, c, w)

/-- `doRequest`: performs an HTTP request with automatic token handling. The Go function
calls itself after a successful `Reauth`; `fuel` bounds the depth of that recursion and
`none` means the bound was reached before any `return`. -/
def doRequest (env : Env) : Nat → Client → World → String → String → Option Body →
    Option ((Option Response × Option GoError) × Client × World)
  | 0, _, _, _, _, _ => none
  | fuel + 1, c, w, method, path, body =>
    match c.doRequestPass env w method path body with
    | (.returns resp err, c, w) => some ((resp, err), c, w)
    | (.retry, c, w) => doRequest env fuel c w method path body

/-- `SetTimeout`. -/
def SetTimeout (c : Client) (timeout : Int) : Client :=
  { c with httpClient := { c.httpClient with Timeout := timeout } }

/-- `GetTimeout`. -/
def GetTimeout (c : Client) : Int := c.httpClient.Timeout

/-- `Client.GetEndpoint`. -/
def GetEndpoint (c : Client) : String := c.endpoint

/-- `GetAPIVersion`. -/
def GetAPIVersion (c : Client) : String := c.apiVersion

/-- `SetAPIVersion`. -/
def SetAPIVersion (c : Client) (version : String) : Client :=
  { c with apiVersion := version }

end Client

/-! ## Classification of errors (client.go)

The argument is a Go `error`: `none` is nil, and `some (.api e)` is the only value whose
dynamic type is `*APIError`. -/

/-- `IsNotFound`: a 404 `*APIError`. -/
def IsNotFound (err : Option GoError) : Bool :=
  match err with
  | some (.api apiErr) => apiErr.StatusCode == 404
  | _ => false

/-- `IsConflict`: a 409 `*APIError`. -/
def IsConflict (err : Option GoError) : Bool :=
  match err with
  | some (.api apiErr) => apiErr.StatusCode == 409
  | _ => false

/-- `IsUnauthorized`: a 401 `*APIError`. -/
def IsUnauthorized (err : Option GoError) : Bool :=
  match err with
  | some (.api apiErr) => apiErr.StatusCode == 401
  | _ => false

/-- `IsForbidden`: a 403 `*APIError`. -/
def IsForbidden (err : Option GoError) : Bool :=
  match err with
  | some (.api apiErr) => apiErr.StatusCode == 403
  | _ => false

/-! ## Concurrent callers of `Authenticator.GetToken`

`GetToken` holds the mutex only inside three critical sections: the read of token and
expiry (`RLock` .. `RUnlock`), the whole of `Authenticate` (`Lock` .. `Unlock`), and the
read of the refreshed token (`RLock` .. `RUnlock`). A caller is therefore a small state
machine whose steps are atomic, and several callers on one authenticator interleave
step by step. -/

/-- Where a caller of `GetToken` stands. -/
inductive Caller where
  /-- Before the first `RLock`. -/
  | entered
  /-- After the first `RUnlock`, holding the locals `token` and `expiry`. -/
  | loaded (token : String) (expiry : Time)
  /-- After a successful `Authenticate`, before the second `RLock`. -/
  | refreshed
  /-- After `return`. -/
  | returned (token : String) (err : Option GoError)
deriving DecidableEq, Repr

namespace Caller

/-- The next atomic step of a caller of `GetToken` on the shared authenticator. -/
def step (env : Env) (a : Authenticator) (w : World) :
    Caller → Caller × Authenticator × World
  | .entered => (.loaded a.token a.tokenExpiry, a, w)
  | .loaded token expiry =>
    if expiry.IsZero then (.returned token none, a, w)
    else
      let now := env.clock w.clockReads
      let w := { w with clockReads := w.clockReads + 1 }
      if Until now expiry < 5 * Minute then
        if a.autoReauth then
          match a.Authenticate env w with
          | (some err, a, w) =>
            (.returned "" (some (.wrap "failed to re-authenticate: " err)), a, w)
          | (none, a, w) => (.refreshed, a, w)
        else
          (.returned "" (some (.msg "token expired and auto-reauth is disabled")), a, w)
      else (.returned token none, a, w)
  | .refreshed => (.returned a.token none, a, w)
  | .returned token err => (.returned token err, a, w)

/-- Whether the caller has made its pass through the refresh check. -/
def pastCheck : Caller → Bool
  | .entered => false
  | .loaded _ _ => false
  | .refreshed => true
  | .returned _ _ => true

/-- Whether the caller has returned. -/
def hasReturned : Caller → Bool
  | .returned _ _ => true
  | _ => false

/-- How far the caller has come: the number of critical sections behind it, 3 once it
has returned. -/
def progress : Caller → Nat
  | .entered => 0
  | .loaded _ _ => 1
  | .refreshed => 2
  | .returned _ _ => 3

end Caller

/-- The token `t` was issued by one of the identity exchanges number `lo` up to
`hi - 1`, made with the options `opts`. -/
def issuedBetween (env : Env) (opts : AuthOptions) (lo hi : Nat) (t : String) : Prop :=
  ∃ k p, lo ≤ k ∧ k < hi ∧ (env.identity k opts).AuthenticatedClient = .ok p ∧ t = p.TokenID

/-- What is expected of a caller of a round in which every caller read the locals `tok`
and `exp`: it still holds those locals, or it is between its `Authenticate` and its
second read, or it has returned either a token issued in this round with no error, or
the empty token with the wrapped error of its failed `Authenticate`. -/
def Caller.inRound (env : Env) (opts : AuthOptions) (lo hi : Nat) (tok : String) (exp : Time) :
    Caller → Prop
  | .entered => False
  | .loaded token expiry => token = tok ∧ expiry = exp
  | .refreshed => True
  | .returned token err =>
    (err = none ∧ issuedBetween env opts lo hi token) ∨
      (token = "" ∧ ∃ e, err = some (.wrap "failed to re-authenticate: " e))

/-- Several callers of `GetToken` on one shared authenticator. -/
structure Callers where
  auth : Authenticator
  world : World
  callers : List Caller
deriving DecidableEq, Repr

namespace Callers

/-- Caller number `i` takes its next atomic step. -/
def step (env : Env) (sys : Callers) (i : Nat) : Callers :=
  match sys.callers.get? i with
  | none => sys
  | some c =>
    match c.step env sys.auth sys.world with
    | (c, a, w) => { auth := a, world := w, callers := sys.callers.set i c }

/-- Runs a schedule: the list of the callers that step, in order. -/
def run (env : Env) (sys : Callers) (schedule : List Nat) : Callers :=
  schedule.foldl (step env) sys

end Callers

/-! ## Go strings as bytes

A Go string is a sequence of bytes and `len` and slicing count bytes. The strings of the
model are Lean strings, read as their UTF-8 encoding wherever the code works on bytes. -/

/-- The UTF-8 encoding of a character, as bytes. -/
def utf8Char (c : Char) : List Nat :=
  let n := c.toNat
  if n < 128 then [n]
  else if n < 2048 then [192 + n / 64, 128 + n % 64]
  else if n < 65536 then [224 + n / 4096, 128 + n / 64 % 64, 128 + n % 64]
  else [240 + n / 262144, 128 + n / 4096 % 64, 128 + n / 64 % 64, 128 + n % 64]

/-- The bytes of a Go string. -/
def utf8Bytes (s : String) : List Nat := s.data.flatMap utf8Char

/-- Go `len(s)` for a string: the number of bytes. -/
def goLen (s : String) : Nat := (utf8Bytes s).length

/-- Lexicographic order of byte sequences. -/
def bytesLE : List Nat → List Nat → Bool
  | [], _ => true
  | _ :: _, [] => false
  | x :: xs, y :: ys => if x < y then true else if y < x then false else bytesLE xs ys

/-- Go `a <= b` for strings: the order of their bytes. -/
def stringLE (a b : String) : Bool := bytesLE (utf8Bytes a) (utf8Bytes b)

namespace Client

/-- The slice expression `c.endpoint[:len(c.endpoint)-len("/"+c.apiVersion)]` of
`GetVersion`, as bytes; `none` is the panic for a slice bound out of range. -/
def baseEndpoint (c : Client) : Option (List Nat) :=
  let high : Int := (goLen c.endpoint : Int) - (goLen ("/" ++ c.apiVersion) : Int)
  if high < 0 then none
  else some ((utf8Bytes c.endpoint).take high.toNat)

/-- The URL that `GetVersion` requests, `baseEndpoint+"/"`, as bytes; `none` when
computing `baseEndpoint` panics. -/
def GetVersionURL (c : Client) : Option (List Nat) :=
  match c.baseEndpoint with
  | none => none
  | some base => some (base ++ utf8Bytes "/")

end Client

/-! ## Query strings (utils.go, with `net/url` of the Go standard library) -/

/-- The `ListOptions` struct of types.go. -/
structure ListOptions where
  Limit : Int := 0
  Marker : String := ""
  SortKey : String := ""
  SortDir : String := ""
deriving DecidableEq, Repr

/-- Go `fmt.Sprintf("%d", n)`. -/
def formatDecimal (n : Int) : String := toString n

/-- The digit of `"0123456789ABCDEF"` for a value below 16. -/
def upperhex (n : Nat) : Char :=
  if n < 10 then Char.ofNat (48 + n) else Char.ofNat (55 + n)

/-- Go `shouldEscape(c, encodeQueryComponent)`: every byte is escaped but the ASCII
letters and digits and `-`, `_`, `.`, `~`. -/
def shouldEscape (b : Nat) : Bool :=
  !((97 ≤ b && b ≤ 122) || (65 ≤ b && b ≤ 90) || (48 ≤ b && b ≤ 57) ||
    b == 45 || b == 95 || b == 46 || b == 126)

/-- What `url.QueryEscape` writes for one byte: `+` for a space, `%XX` for a byte that
must be escaped, the byte itself otherwise. -/
def escapeByte (b : Nat) : List Char :=
  if shouldEscape b then
    if b = 32 then ['+']
    else ['%', upperhex (b / 16), upperhex (b % 16)]
  else [Char.ofNat b]

/-- Go `url.QueryEscape`. -/
def QueryEscape (s : String) : String := ⟨(utf8Bytes s).flatMap escapeByte⟩

/-- Go `url.Values`, a `map[string][]string`, kept as a list of keys with their values,
no key twice. -/
abbrev Values := List (String × List String)

namespace Values

/-- Go `Values.Add`: appends the value to the values of the key. -/
def Add (v : Values) (key value : String) : Values :=
  match v with
  | [] => [(key, [value])]
  | (k, vs) :: rest => if k = key then (k, vs ++ [value]) :: rest else (k, vs) :: Add rest key value

/-- The values of a key, `v[key]`. -/
def get (v : Values) (key : String) : List String :=
  match v with
  | [] => []
  | (k, vs) :: rest => if k = key then vs else get rest key

/-- Go `Values.Encode`: the pairs `key=value`, both escaped, joined by `&`, the keys in
ascending order. -/
def Encode (v : Values) : String :=
  let keys := (v.map Prod.fst).insertionSort (fun a b => stringLE a b = true)
  keys.foldl
    (fun buf k =>
      (v.get k).foldl
        (fun buf value =>
          (if buf.length > 0 then buf ++ "&" else buf) ++ QueryEscape k ++ "=" ++
            QueryEscape value)
        buf)
    ""

end Values

/-- `buildQueryString`: builds the query string from `ListOptions`; `none` is nil. -/
def buildQueryString (opts : Option ListOptions) : String :=
  match opts with
  | none => ""
  | some opts =>
    let params : Values := []
    let params := if opts.Limit > 0 then params.Add "limit" (formatDecimal opts.Limit) else params
    let params := if opts.Marker ≠ "" then params.Add "marker" opts.Marker else params
    let params := if opts.SortKey ≠ "" then params.Add "sort_key" opts.SortKey else params
    let params := if opts.SortDir ≠ "" then params.Add "sort_dir" opts.SortDir else params
    if params.length = 0 then ""
    else "?" ++ params.Encode

/-- In the words of the specification: the `key=value` pairs of the fields that are set,
in ascending key order (limit, marker, sort_dir, sort_key), values escaped, the limit in
decimal and only when positive. -/
def expectedPairs (opts : ListOptions) : List String :=
  (if opts.Limit > 0 then ["limit" ++ "=" ++ formatDecimal opts.Limit] else []) ++
  (if opts.Marker ≠ "" then ["marker" ++ "=" ++ QueryEscape opts.Marker] else []) ++
  (if opts.SortDir ≠ "" then ["sort_dir" ++ "=" ++ QueryEscape opts.SortDir] else []) ++
  (if opts.SortKey ≠ "" then ["sort_key" ++ "=" ++ QueryEscape opts.SortKey] else [])

/-! ## Concrete scenarios used by the evaluations below -/

/-- Midnight of 2024-01-01 UTC in nanoseconds since the zero time. -/
def t2024 : Int := 63839664000 * Second

/-- Credential of the scenario of the specification: user `u`, project `demo`. -/
def demoOptions : AuthOptions :=
  { IdentityEndpoint := "https://keystone.example/v3", Username := "u", Password := "p",
    AllowReauth := true, Scope := some { ProjectName := "demo" } }

/-- An authenticator holding `tok-1`, expiring ten minutes after `t2024`. -/
def demoAuth : Authenticator :=
  { authOptions := demoOptions, provider := some "tok-1", token := "tok-1",
    tokenExpiry := ⟨t2024 + 10 * Minute⟩, endpoint := "https://watcher.example",
    autoReauth := true }

/-- An identity service that always issues `tok-2`, valid for an hour after `t2024`;
the clock always reads `now`, every request answers 200. -/
def demoEnv (now : Int) : Env :=
  { identity := fun _ _ =>
      { AuthenticatedClient := .ok { TokenID := "tok-2", EndpointLocator := .ok "https://watcher.example" },
        NewIdentityV3 := .ok (),
        TokensGet := .ok { ExpiresAt := ⟨t2024 + 60 * Minute⟩ } },
    clock := fun _ => ⟨now⟩,
    NewRequest := fun _ url => .ok url,
    Do := fun _ _ => .ok { StatusCode := 200, Body := "" } }

/-- The clock reads exactly five minutes before the expiry of `demoAuth`. -/
def boundaryEnv : Env := demoEnv (t2024 + 5 * Minute)

/-- An identity service whose exchange succeeds with `tok-2` (expiring an hour after
`t2024`) but whose catalog has no `infra-optim` endpoint. -/
def noEndpointEnv : Env :=
  { identity := fun _ _ =>
      { AuthenticatedClient := .ok { TokenID := "tok-2", EndpointLocator := .error (.msg "no matching endpoint") },
        NewIdentityV3 := .ok (),
        TokensGet := .ok { ExpiresAt := ⟨t2024 + 60 * Minute⟩ } },
    clock := fun _ => ⟨t2024 + 6 * Minute⟩,
    NewRequest := fun _ url => .ok url,
    Do := fun _ _ => .ok { StatusCode := 200, Body := "" } }

/-- A client bound to the scenario authenticator. -/
def demoClient : Client := NewClientWithAuthenticator (.authenticator demoAuth)

/-- The identity exchange issues `tok-2` but the locator call fails, as it does with the
library for `EndpointOpts` without an `Availability`; the clock reads `t2024` (no refresh
is due); every request answers 401. -/
def rejectedTokenEnv : Env :=
  { noEndpointEnv with
    clock := fun _ => ⟨t2024⟩,
    Do := fun _ _ => .ok { StatusCode := 401, Body := "" } }

/-- Every request answers 401. -/
def unauthorizedEnv : Env :=
  { demoEnv t2024 with Do := fun _ _ => .ok { StatusCode := 401, Body := "" } }

/-- Options with an identity endpoint but no authentication method at all. -/
def noMethodOptions : AuthOptions := { IdentityEndpoint := "https://keystone.example" }

/-- Options with a password method and a scope that names neither project nor domain. -/
def emptyScopeOptions : AuthOptions :=
  { IdentityEndpoint := "https://keystone.example", Username := "u", Password := "p",
    Scope := some {} }

/-- An identity service that rejects every exchange. -/
def rejectEnv : Env :=
  { demoEnv t2024 with
    identity := fun _ _ =>
      { AuthenticatedClient := .error (.msg "Authentication failed"),
        NewIdentityV3 := .ok (),
        TokensGet := .error (.msg "unreachable") } }

/-- Every request answers 404 with body `not found`; `http.NewRequest` re-encodes the
URL of the goal named `a b` as Go does (the space becomes `%20`) and leaves every other
URL as it is. -/
def escapingEnv : Env :=
  { demoEnv t2024 with
    NewRequest := fun _ url =>
      if url = "https://watcher.example/v1/goals/a b" then
        .ok "https://watcher.example/v1/goals/a%20b"
      else .ok url,
    Do := fun _ _ => .ok { StatusCode := 404, Body := "not found" } }

/-- Three instances: at address 1 an expiry ten minutes before `t2024`, at address 2 the
scenario authenticator (expiring ten minutes after `t2024`), elsewhere an unknown
expiry. -/
def sweepHeap : Heap := fun addr =>
  if addr = 1 then { demoAuth with tokenExpiry := ⟨t2024 - 10 * Minute⟩ }
  else if addr = 2 then demoAuth
  else { demoAuth with tokenExpiry := ⟨0⟩ }

/-- A registry of three sessions over `sweepHeap`. -/
def sweepManager : SessionManager :=
  ((NewSessionManager.AddSession "old" (some 1)).AddSession "fresh" (some 2)).AddSession
    "unknown" (some 3)

/-- A clock that advances by two seconds at each reading, starting one second before
`t2024`; otherwise the scenario environment. -/
def tickingEnv : Env :=
  { demoEnv t2024 with clock := fun n => ⟨t2024 - Second + 2 * (n : Int) * Second⟩ }

/-- At every address an authenticator whose token expires exactly at `t2024`. -/
def sameExpiryHeap : Heap := fun _ => { demoAuth with tokenExpiry := ⟨t2024⟩ }

/-- A registry of two sessions, `a` and `b`. -/
def twoSessions : SessionManager :=
  (NewSessionManager.AddSession "a" (some 1)).AddSession "b" (some 2)

/-! ## Token lifecycle -/

/-- Saturation in `Time.Sub` never changes the comparison with the five-minute buffer. -/
theorem Until_lt_buffer_iff (now t : Time) :
    Until now t < 5 * Minute ↔ t.nanos - now.nanos < 5 * Minute := by
  have hm : 5 * Minute = 300000000000 := by decide
  rw [hm]
  show (if t.nanos - now.nanos < minDuration then minDuration
    else if maxDuration < t.nanos - now.nanos then maxDuration else t.nanos - now.nanos) < _ ↔ _
  unfold minDuration maxDuration
  split_ifs <;> constructor <;> intro _ <;> omega

/-- `updateTokenExpiry` writes nothing but the expiry. -/
theorem updateTokenExpiry_frame (reply : IdentityReply) (a : Authenticator) :
    (a.updateTokenExpiry reply).2 =
      { a with tokenExpiry := (a.updateTokenExpiry reply).2.tokenExpiry } := by
  unfold Authenticator.updateTokenExpiry
  split
  · rfl
  · split
    · rfl
    · split <;> rfl

/-- `Authenticate` when the identity exchange fails: nothing is written. -/
theorem Authenticate_exchange_error (env : Env) (a : Authenticator) (w : World) (e : GoError)
    (h : (env.identity w.authCalls a.authOptions).AuthenticatedClient = .error e) :
    a.Authenticate env w =
      (some (.wrap "failed to authenticate: " e), a, { w with authCalls := w.authCalls + 1 }) := by
  simp only [Authenticator.Authenticate, h]

/-- `Authenticate` when the identity exchange succeeds but the catalog lookup fails. -/
theorem Authenticate_locate_error (env : Env) (a : Authenticator) (w : World)
    (p : ProviderClient) (e : GoError)
    (h : (env.identity w.authCalls a.authOptions).AuthenticatedClient = .ok p)
    (hp : p.EndpointLocator = .error e) :
    a.Authenticate env w =
      (some (.wrap "failed to locate Watcher endpoint: " e),
        (Authenticator.updateTokenExpiry (env.identity w.authCalls a.authOptions)
          { a with provider := some p.TokenID, token := p.TokenID }).2,
        { w with authCalls := w.authCalls + 1 }) := by
  simp only [Authenticator.Authenticate, h, hp]

/-- `Authenticate` when both the identity exchange and the catalog lookup succeed. -/
theorem Authenticate_success (env : Env) (a : Authenticator) (w : World)
    (p : ProviderClient) (ep : String)
    (h : (env.identity w.authCalls a.authOptions).AuthenticatedClient = .ok p)
    (hp : p.EndpointLocator = .ok ep) :
    a.Authenticate env w =
      (none,
        { (Authenticator.updateTokenExpiry (env.identity w.authCalls a.authOptions)
            { a with provider := some p.TokenID, token := p.TokenID }).2 with endpoint := ep },
        { w with authCalls := w.authCalls + 1 }) := by
  simp only [Authenticator.Authenticate, h, hp]

/-- `Authenticate` counts as exactly one authentication call. -/
theorem Authenticate_world (env : Env) (a : Authenticator) (w : World) :
    (a.Authenticate env w).2.2 = { w with authCalls := w.authCalls + 1 } := by
  cases h : (env.identity w.authCalls a.authOptions).AuthenticatedClient with
  | error e => rw [Authenticate_exchange_error env a w e h]
  | ok p =>
    cases hp : p.EndpointLocator with
    | error e => rw [Authenticate_locate_error env a w p e h hp]
    | ok ep => rw [Authenticate_success env a w p ep h hp]

/-- `Authenticate` succeeds only when the identity exchange succeeded, and then the
cached token is the token of that exchange. -/
theorem Authenticate_ok_token (env : Env) (a : Authenticator) (w : World)
    (h : (a.Authenticate env w).1 = none) :
    ∃ p, (env.identity w.authCalls a.authOptions).AuthenticatedClient = .ok p ∧
      (a.Authenticate env w).2.1.token = p.TokenID := by
  cases hc : (env.identity w.authCalls a.authOptions).AuthenticatedClient with
  | error e => rw [Authenticate_exchange_error env a w e hc] at h; simp at h
  | ok p =>
    refine ⟨p, rfl, ?_⟩
    cases hp : p.EndpointLocator with
    | error e => rw [Authenticate_locate_error env a w p e hc hp] at h; simp at h
    | ok ep =>
      rw [Authenticate_success env a w p ep hc hp]
      show (Authenticator.updateTokenExpiry _ _).2.token = _
      rw [updateTokenExpiry_frame]

/-- `Authenticate` never changes the options or the auto-reauth flag. -/
theorem Authenticate_keeps_config (env : Env) (a : Authenticator) (w : World) :
    (a.Authenticate env w).2.1.authOptions = a.authOptions ∧
      (a.Authenticate env w).2.1.autoReauth = a.autoReauth := by
  cases hc : (env.identity w.authCalls a.authOptions).AuthenticatedClient with
  | error e => rw [Authenticate_exchange_error env a w e hc]; exact ⟨rfl, rfl⟩
  | ok p =>
    cases hp : p.EndpointLocator with
    | error e =>
      rw [Authenticate_locate_error env a w p e hc hp]
      show (Authenticator.updateTokenExpiry _ _).2.authOptions = _ ∧
        (Authenticator.updateTokenExpiry _ _).2.autoReauth = _
      rw [updateTokenExpiry_frame]
      exact ⟨rfl, rfl⟩
    | ok ep =>
      rw [Authenticate_success env a w p ep hc hp]
      show (Authenticator.updateTokenExpiry _ _).2.authOptions = _ ∧
        (Authenticator.updateTokenExpiry _ _).2.autoReauth = _
      rw [updateTokenExpiry_frame]
      exact ⟨rfl, rfl⟩

/-! ### GetToken -/

/-- C1, as stated, fails at the boundary: with auto-reauth enabled, a known expiry and
exactly five minutes remaining (`now = expiry - 5min`), `GetToken` makes no
`Authenticate` call and returns the cached `tok-1`, although the identity service
would have issued `tok-2`. -/
theorem GetToken_boundary_counterexample :
    demoAuth.autoReauth = true ∧ demoAuth.tokenExpiry.IsZero = false ∧
      demoAuth.tokenExpiry.nanos - 5 * Minute ≤ (boundaryEnv.clock 0).nanos ∧
      (demoAuth.GetToken boundaryEnv {}).2.2.authCalls = 0 ∧
      (demoAuth.GetToken boundaryEnv {}).1 = ("tok-1", none) := by
  decide

/-- C1 (amended): with auto-reauth enabled, a known expiry and strictly less than five
minutes remaining (`now > expiry - 5min`), `GetToken` performs exactly one
`Authenticate` (the authenticator and the call counters afterwards are those of one
`Authenticate` run on the state before), it succeeds exactly when that `Authenticate`
does, and on success the token returned is the token cached afterwards, which is the
token issued by that identity exchange. -/
theorem GetToken_refreshes_once (env : Env) (a : Authenticator) (w : World)
    (hre : a.autoReauth = true) (hz : a.tokenExpiry.IsZero = false)
    (hnear : a.tokenExpiry.nanos - 5 * Minute < (env.clock w.clockReads).nanos) :
    (a.GetToken env w).2.2.authCalls = w.authCalls + 1 ∧
      (a.GetToken env w).2 =
        (a.Authenticate env { w with clockReads := w.clockReads + 1 }).2 ∧
      ((a.GetToken env w).1.2 = none ↔
        (a.Authenticate env { w with clockReads := w.clockReads + 1 }).1 = none) ∧
      ((a.GetToken env w).1.2 = none →
        (a.GetToken env w).1.1 = (a.GetToken env w).2.1.token ∧
        ∃ p, (env.identity w.authCalls a.authOptions).AuthenticatedClient = .ok p ∧
          (a.GetToken env w).1.1 = p.TokenID) := by
  have hbuf : Until (env.clock w.clockReads) a.tokenExpiry < 5 * Minute :=
    (Until_lt_buffer_iff _ _).2 (by omega)
  have hw := Authenticate_world env a { w with clockReads := w.clockReads + 1 }
  have htok := Authenticate_ok_token env a { w with clockReads := w.clockReads + 1 }
  rcases hA : a.Authenticate env { w with clockReads := w.clockReads + 1 } with ⟨err, a', w'⟩
  rw [hA] at hw htok
  simp only at hw
  cases err with
  | some e =>
    have hG : a.GetToken env w =
        (("", some (GoError.wrap "failed to re-authenticate: " e)), a', w') := by
      simp [Authenticator.GetToken, hz, hbuf, hre, hA]
    rw [hG, hw]
    exact ⟨rfl, rfl, by simp, by simp⟩
  | none =>
    have hG : a.GetToken env w = ((a'.token, none), a', w') := by
      simp [Authenticator.GetToken, hz, hbuf, hre, hA]
    rw [hG, hw]
    exact ⟨rfl, rfl, by simp, fun _ => ⟨rfl, htok rfl⟩⟩

/-- Witness for C1 (amended): four minutes before expiry the scenario authenticator
refreshes once and returns `tok-2`. -/
theorem GetToken_refreshes_once_witness :
    (demoAuth.GetToken (demoEnv (t2024 + 6 * Minute)) {}).2.2.authCalls = 0 + 1 ∧
      (demoAuth.GetToken (demoEnv (t2024 + 6 * Minute)) {}).1 = ("tok-2", none) :=
  ⟨(GetToken_refreshes_once (demoEnv (t2024 + 6 * Minute)) demoAuth {} rfl rfl
      (by decide)).1, by decide⟩

/-- C2: with auto-reauth disabled and a known expiry less than five minutes away (or
past), `GetToken` fails with the token-expired error, returns the empty token, makes
no `Authenticate` or `Reauth` call, sends nothing, and leaves the authenticator (token,
expiry, endpoint and all else) unchanged. -/
theorem GetToken_expired_without_reauth (env : Env) (a : Authenticator) (w : World)
    (hre : a.autoReauth = false) (hz : a.tokenExpiry.IsZero = false)
    (hnear : a.tokenExpiry.nanos - (env.clock w.clockReads).nanos < 5 * Minute) :
    (a.GetToken env w).1 = ("", some (.msg "token expired and auto-reauth is disabled")) ∧
      (a.GetToken env w).2.1 = a ∧
      (a.GetToken env w).2.2.authCalls = w.authCalls ∧
      (a.GetToken env w).2.2.reauthCalls = w.reauthCalls ∧
      (a.GetToken env w).2.2.sent = w.sent := by
  have hbuf : Until (env.clock w.clockReads) a.tokenExpiry < 5 * Minute :=
    (Until_lt_buffer_iff _ _).2 hnear
  simp [Authenticator.GetToken, hz, hbuf, hre]

/-- Witness for C2: the scenario authenticator with auto-reauth switched off, four
minutes before expiry. -/
theorem GetToken_expired_without_reauth_witness :
    ({ demoAuth with autoReauth := false }.GetToken (demoEnv (t2024 + 6 * Minute)) {}).1 =
        ("", some (.msg "token expired and auto-reauth is disabled")) ∧
      ({ demoAuth with autoReauth := false }.GetToken (demoEnv (t2024 + 6 * Minute)) {}).2.1 =
        { demoAuth with autoReauth := false } :=
  ⟨(GetToken_expired_without_reauth (demoEnv (t2024 + 6 * Minute)) { demoAuth with autoReauth := false } {}
      rfl rfl (by decide)).1,
    (GetToken_expired_without_reauth (demoEnv (t2024 + 6 * Minute)) { demoAuth with autoReauth := false } {}
      rfl rfl (by decide)).2.1⟩

/-- C3: whatever the auto-reauth flag, when the cached expiry is unknown (zero) or more
than five minutes remain until it, `GetToken` succeeds with exactly the cached token,
makes no `Authenticate` or `Reauth` call, sends nothing, and leaves the authenticator
unchanged. -/
theorem GetToken_cached (env : Env) (a : Authenticator) (w : World)
    (h : a.tokenExpiry.IsZero = true ∨
      5 * Minute < a.tokenExpiry.nanos - (env.clock w.clockReads).nanos) :
    (a.GetToken env w).1 = (a.token, none) ∧
      (a.GetToken env w).2.1 = a ∧
      (a.GetToken env w).2.2.authCalls = w.authCalls ∧
      (a.GetToken env w).2.2.reauthCalls = w.reauthCalls ∧
      (a.GetToken env w).2.2.sent = w.sent := by
  cases hz : a.tokenExpiry.IsZero with
  | true => simp [Authenticator.GetToken, hz]
  | false =>
    have hfar : 5 * Minute < a.tokenExpiry.nanos - (env.clock w.clockReads).nanos := by
      rcases h with h | h
      · rw [hz] at h; cases h
      · exact h
    have hbuf : ¬ Until (env.clock w.clockReads) a.tokenExpiry < 5 * Minute := by
      rw [Until_lt_buffer_iff]; omega
    simp [Authenticator.GetToken, hz, hbuf]

/-- Witness for C3: immediately after construction (ten minutes before expiry, clock at
`t2024`) the scenario authenticator returns `tok-1` without any call. -/
theorem GetToken_cached_witness :
    (demoAuth.GetToken (demoEnv t2024) {}).1 = ("tok-1", none) ∧
      (demoAuth.GetToken (demoEnv t2024) {}).2.2.authCalls = 0 :=
  ⟨(GetToken_cached (demoEnv t2024) demoAuth {}
      (Or.inr (by decide))).1,
    (GetToken_cached (demoEnv t2024) demoAuth {}
      (Or.inr (by decide))).2.2.1⟩

/-! ### Authenticate on failure -/

/-- C4 (evaluation at the failing input): the identity exchange succeeds with `tok-2`
but the catalog has no Watcher endpoint. `Authenticate` returns the endpoint error, yet
the cached token has already been overwritten from `tok-1` to `tok-2` and the cached
expiry replaced, while the endpoint is still the old one; `Reauth` does the same. -/
theorem Authenticate_locate_error_overwrites :
    (demoAuth.Authenticate noEndpointEnv {}).1 =
        some (.wrap "failed to locate Watcher endpoint: " (.msg "no matching endpoint")) ∧
      demoAuth.token = "tok-1" ∧
      (demoAuth.Authenticate noEndpointEnv {}).2.1.token = "tok-2" ∧
      demoAuth.tokenExpiry = ⟨t2024 + 10 * Minute⟩ ∧
      (demoAuth.Authenticate noEndpointEnv {}).2.1.tokenExpiry = ⟨t2024 + 60 * Minute⟩ ∧
      (demoAuth.Authenticate noEndpointEnv {}).2.1.endpoint = demoAuth.endpoint ∧
      (demoAuth.Reauth noEndpointEnv {}).1 ≠ none ∧
      (demoAuth.Reauth noEndpointEnv {}).2.1.token = "tok-2" := by
  decide

/-! ## Request retry on 401 -/

/-- More fuel never changes what `doRequest` returns. -/
theorem doRequest_fuel_succ (env : Env) (fuel : Nat) (c : Client) (w : World)
    (method path : String) (body : Option Body)
    (r : (Option Response × Option GoError) × Client × World)
    (h : c.doRequest env fuel w method path body = some r) :
    c.doRequest env (fuel + 1) w method path body = some r := by
  induction fuel generalizing c w with
  | zero => simp [Client.doRequest] at h
  | succ n ih =>
    unfold Client.doRequest at h ⊢
    rcases hp : c.doRequestPass env w method path body with ⟨o, c1, w1⟩
    rw [hp] at h
    cases o with
    | returns resp err => simpa using h
    | retry => exact ih c1 w1 h

/-- C6: when the request answers 401 and the provider is not an authenticator with
auto-reauth enabled (a token authenticator, another implementation, or an authenticator
with auto-reauth disabled), `doRequest` returns the authentication-failed error and no
response, after exactly one send, and no `Authenticate` or `Reauth` call is made. -/
theorem doRequest_401_without_reauth (env : Env) (fuel : Nat) (c : Client) (w w1 : World)
    (p1 : TokenProvider) (token method path : String) (body : Option Body)
    (bodyReader : Option String) (url : String) (resp : Response)
    (hprov : ∀ a, c.authenticator = .authenticator a → a.autoReauth = false)
    (htok : c.authenticator.GetToken env w = ((token, none), p1, w1))
    (hbody : marshalBody body = .ok bodyReader)
    (hreq : env.NewRequest method (c.endpoint ++ path) = .ok url)
    (hans : env.Do w1.sent.length
      ⟨method, url, token, "infra-optim " ++ c.apiVersion, bodyReader⟩ = .ok resp)
    (h401 : resp.StatusCode = 401) :
    ∃ c' w', c.doRequest env (fuel + 1) w method path body =
        some ((none, some (.msg "authentication failed: token expired or invalid")), c', w') ∧
      w'.sent = w.sent ++ [⟨method, url, token, "infra-optim " ++ c.apiVersion, bodyReader⟩] ∧
      w'.authCalls = w.authCalls ∧ w'.reauthCalls = w.reauthCalls := by
  have hG : w1.sent = w.sent ∧ w1.authCalls = w.authCalls ∧ w1.reauthCalls = w.reauthCalls ∧
      ∀ a, p1 = .authenticator a → a.autoReauth = false := by
    cases hp : c.authenticator with
    | authenticator a =>
      have hre := hprov a hp
      rw [hp] at htok
      simp only [TokenProvider.GetToken] at htok
      by_cases hz : a.tokenExpiry.IsZero = true
      · simp [Authenticator.GetToken, hz] at htok
        obtain ⟨-, rfl, rfl⟩ := htok
        exact ⟨rfl, rfl, rfl, fun b hb => by cases hb; exact hre⟩
      · by_cases hbuf : Until (env.clock w.clockReads) a.tokenExpiry < 5 * Minute
        · simp [Authenticator.GetToken, hz, hbuf, hre] at htok
        · simp [Authenticator.GetToken, hz, hbuf] at htok
          obtain ⟨-, rfl, rfl⟩ := htok
          exact ⟨rfl, rfl, rfl, fun b hb => by cases hb; exact hre⟩
    | tokenAuthenticator t =>
      rw [hp] at htok
      simp only [TokenProvider.GetToken, Prod.mk.injEq] at htok
      obtain ⟨-, rfl, rfl⟩ := htok
      exact ⟨rfl, rfl, rfl, fun b hb => by cases hb⟩
    | other tok err ep =>
      rw [hp] at htok
      simp only [TokenProvider.GetToken, Prod.mk.injEq] at htok
      obtain ⟨-, rfl, rfl⟩ := htok
      exact ⟨rfl, rfl, rfl, fun b hb => by cases hb⟩
  obtain ⟨hs, ha, hr, hp1⟩ := hG
  refine ⟨{ c with authenticator := p1 },
    { w1 with sent := w1.sent ++ [⟨method, url, token, "infra-optim " ++ c.apiVersion, bodyReader⟩] },
    ?_, by simp [hs], ha, hr⟩
  unfold Client.doRequest
  have hpass : c.doRequestPass env w method path body =
      (.returns none (some (.msg "authentication failed: token expired or invalid")),
        { c with authenticator := p1 },
        { w1 with sent := w1.sent ++
            [⟨method, url, token, "infra-optim " ++ c.apiVersion, bodyReader⟩] }) := by
    cases p1 with
    | authenticator a1 =>
      have := hp1 a1 rfl
      simp [Client.doRequestPass, htok, hbody, hreq, hans, h401, this]
    | tokenAuthenticator t => simp [Client.doRequestPass, htok, hbody, hreq, hans, h401]
    | other tok err ep => simp [Client.doRequestPass, htok, hbody, hreq, hans, h401]
  rw [hpass]

/-- Witness for C6: a client built from a stale token against a server answering 401. -/
theorem doRequest_401_without_reauth_witness :
    ∃ c' w', (NewClientWithToken "https://watcher.example" "stale").doRequest
          unauthorizedEnv (0 + 1) {} "GET" "/audits" none =
        some ((none, some (.msg "authentication failed: token expired or invalid")), c', w') ∧
      w'.sent = ({} : World).sent ++ [⟨"GET", "https://watcher.example/v1/audits", "stale",
        "infra-optim " ++ (NewClientWithToken "https://watcher.example" "stale").apiVersion,
        none⟩] ∧
      w'.authCalls = ({} : World).authCalls ∧ w'.reauthCalls = ({} : World).reauthCalls :=
  doRequest_401_without_reauth unauthorizedEnv 0
    (NewClientWithToken "https://watcher.example" "stale") {} {}
    (.tokenAuthenticator ⟨"https://watcher.example", "stale"⟩) "stale" "GET" "/audits" none none
    "https://watcher.example/v1/audits" ⟨401, ""⟩ (fun _ h => by cases h) rfl rfl rfl rfl rfl

/-! ## Construction and validation -/

/-- C7, as stated, fails: options with an identity endpoint but no authentication
method, and options whose scope names neither project nor domain, are both rejected by
`ValidateAuthOptions`, yet `NewAuthenticator` does not check them: it goes to the
identity service (one authentication call), fails only with that service's error when it
rejects, and succeeds when it accepts. -/
theorem NewAuthenticator_unvalidated_counterexample :
    ValidateAuthOptions (some noMethodOptions) =
        some (.msg "no valid authentication method provided") ∧
      (NewAuthenticator rejectEnv (some noMethodOptions) {}).2.authCalls = 1 ∧
      (NewAuthenticator rejectEnv (some noMethodOptions) {}).1 =
        (none, some (.wrap "initial authentication failed: "
          (.wrap "failed to authenticate: " (.msg "Authentication failed")))) ∧
      (NewAuthenticator (demoEnv t2024) (some noMethodOptions) {}).1.2 = none ∧
      ValidateAuthOptions (some emptyScopeOptions) =
        some (.msg "scope must specify either project or domain") ∧
      (NewAuthenticator rejectEnv (some emptyScopeOptions) {}).2.authCalls = 1 ∧
      (NewAuthenticator (demoEnv t2024) (some emptyScopeOptions) {}).1.2 = none := by
  decide

/-- C7 (amended): `NewAuthenticator` fails with a validation error, before any
identity-service call, when the options are nil or the identity endpoint is missing.
Options that `ValidateAuthOptions` rejects (which includes a missing method and a scope
without project or domain) make `NewClient` fail with that validation error before any
identity-service call, because `NewClient` validates before it constructs the
authenticator. -/
theorem NewAuthenticator_validation (env : Env) (w : World) :
    (∀ opts : Option AuthOptions,
        (opts = none ∨ ∃ o, opts = some o ∧ o.IdentityEndpoint = "") →
        ∃ text, NewAuthenticator env opts w = ((none, some (.msg text)), w)) ∧
      (∀ (copts : ClientOptions) (err : GoError),
        ValidateAuthOptions (some (clientAuthOptions copts)) = some err →
        NewClient env copts w = ((none, some (.wrap "invalid auth options: " err)), w)) := by
  constructor
  · rintro opts (rfl | ⟨o, rfl, ho⟩)
    · exact ⟨_, rfl⟩
    · exact ⟨"identity endpoint is required", by simp [NewAuthenticator, ho]⟩
  · intro copts err h
    have hsame : clientAuthOptions
        (if copts.Timeout = 0 then { copts with Timeout := DefaultTimeout } else copts) =
        clientAuthOptions copts := by
      split_ifs <;> rfl
    simp only [NewClient, hsame, h]

/-- Witness for C7 (amended): options without an endpoint, and client options without
a password. -/
theorem NewAuthenticator_validation_witness :
    (∃ text, NewAuthenticator rejectEnv (some {}) {} = ((none, some (.msg text)), {})) ∧
      NewClient rejectEnv { AuthURL := "https://keystone.example", Username := "u" } {} =
        ((none, some (.wrap "invalid auth options: "
          (.msg "no valid authentication method provided"))), {}) :=
  ⟨(NewAuthenticator_validation rejectEnv {}).1 (some {}) (Or.inr ⟨{}, rfl, rfl⟩),
    (NewAuthenticator_validation rejectEnv {}).2
      { AuthURL := "https://keystone.example", Username := "u" } _ (by decide)⟩

/-- C8: `ValidateAuthOptions` returns no error exactly when the options are non-nil,
the identity endpoint is non-empty, at least one of the four method groups is fully
populated (username and password; token id; application-credential id and secret;
application-credential name and secret), and the scope is absent or names a project or
a domain by name or id. -/
theorem ValidateAuthOptions_ok_iff (opts : Option AuthOptions) :
    ValidateAuthOptions opts = none ↔
      ∃ o, opts = some o ∧ o.IdentityEndpoint ≠ "" ∧
        ((o.Username ≠ "" ∧ o.Password ≠ "") ∨ o.TokenID ≠ "" ∨
          (o.ApplicationCredentialID ≠ "" ∧ o.ApplicationCredentialSecret ≠ "") ∨
          (o.ApplicationCredentialName ≠ "" ∧ o.ApplicationCredentialSecret ≠ "")) ∧
        (o.Scope = none ∨ ∃ sc, o.Scope = some sc ∧
          (sc.ProjectName ≠ "" ∨ sc.ProjectID ≠ "" ∨ sc.DomainName ≠ "" ∨ sc.DomainID ≠ "")) := by
  cases opts with
  | none => simp [ValidateAuthOptions]
  | some o =>
    simp only [ValidateAuthOptions, Option.some.injEq, exists_eq_left']
    by_cases he : o.IdentityEndpoint = ""
    · simp [he]
    · by_cases hm : ((o.Username ≠ "" ∧ o.Password ≠ "") ∨ o.TokenID ≠ "" ∨
          (o.ApplicationCredentialID ≠ "" ∧ o.ApplicationCredentialSecret ≠ "") ∨
          (o.ApplicationCredentialName ≠ "" ∧ o.ApplicationCredentialSecret ≠ ""))
      · have hb : (!(o.Username != "" && o.Password != "") && !(o.TokenID != "") &&
            !(o.ApplicationCredentialID != "" && o.ApplicationCredentialSecret != "") &&
            !(o.ApplicationCredentialName != "" && o.ApplicationCredentialSecret != "")) = false := by
          simp only [Bool.and_eq_false_iff, Bool.not_eq_false', Bool.and_eq_true, bne_iff_ne]
          tauto
        simp only [he, if_false, hb, hm, ne_eq, not_false_eq_true, true_and]
        cases hs : o.Scope with
        | none => simp
        | some sc =>
          simp only [Option.some.injEq, exists_eq_left', false_or, reduceCtorEq]
          by_cases hsc : (sc.ProjectName ≠ "" ∨ sc.ProjectID ≠ "" ∨ sc.DomainName ≠ "" ∨ sc.DomainID ≠ "")
          · have hb2 : (sc.ProjectID == "" && sc.ProjectName == "" &&
                sc.DomainID == "" && sc.DomainName == "") = false := by
              simp only [Bool.and_eq_false_iff, beq_eq_false_iff_ne]
              tauto
            simp [hb2, hsc]
          · have hb2 : (sc.ProjectID == "" && sc.ProjectName == "" &&
                sc.DomainID == "" && sc.DomainName == "") = true := by
              simp only [Bool.and_eq_true, beq_iff_eq]
              simp only [not_or, ne_eq, not_not] at hsc
              tauto
            simp [hb2, hsc]
      · have hb : (!(o.Username != "" && o.Password != "") && !(o.TokenID != "") &&
            !(o.ApplicationCredentialID != "" && o.ApplicationCredentialSecret != "") &&
            !(o.ApplicationCredentialName != "" && o.ApplicationCredentialSecret != "")) = true := by
          simp only [Bool.and_eq_true, Bool.not_eq_true', Bool.and_eq_false_iff,
            bne_eq_false_iff_eq]
          simp only [not_or, not_and_or, ne_eq, not_not] at hm
          tauto
        simp only [he, if_false, hb, if_true, reduceCtorEq, false_iff, not_and]
        intro _ h
        exact absurd h hm

/-! ## TokenAuthenticator -/

/-- C9: for every endpoint and token, the token authenticator built by
`NewTokenAuthenticator endpoint token` fails `GetToken` with the empty-token error when
the token is empty, returns exactly the token with no error when it is not, and
`GetEndpoint` returns exactly the endpoint. -/
theorem TokenAuthenticator_GetToken (endpoint token : String) :
    (token = "" →
        (NewTokenAuthenticator endpoint token).GetToken = ("", some (.msg "token is empty"))) ∧
      (token ≠ "" → (NewTokenAuthenticator endpoint token).GetToken = (token, none)) ∧
      (NewTokenAuthenticator endpoint token).GetEndpoint = endpoint := by
  refine ⟨fun h => ?_, fun h => ?_, rfl⟩
  · simp [NewTokenAuthenticator, TokenAuthenticator.GetToken, h]
  · simp [NewTokenAuthenticator, TokenAuthenticator.GetToken, h]

/-- Witness for C9: the tokens of the repository's tests. -/
theorem TokenAuthenticator_GetToken_witness :
    (NewTokenAuthenticator "http://test:9322" "").GetToken =
        ("", some (.msg "token is empty")) ∧
      (NewTokenAuthenticator "http://test:9322" "my-test-token").GetToken =
        ("my-test-token", none) :=
  ⟨(TokenAuthenticator_GetToken "http://test:9322" "").1 rfl,
    (TokenAuthenticator_GetToken "http://test:9322" "my-test-token").2.1 (by decide)⟩

/-! ## SessionManager -/

/-- C10: after `AddSession name auth`, `GetSession name` succeeds with that same
reference, whatever was registered under `name` before; the result of `GetSession` for
every other name is unchanged; and `name` is listed exactly once. -/
theorem AddSession_GetSession (sm : SessionManager) (name : String) (auth : AuthRef) :
    (sm.AddSession name auth).GetSession name = (auth, none) ∧
      (∀ other, other ≠ name →
        (sm.AddSession name auth).GetSession other = sm.GetSession other) ∧
      (sm.AddSession name auth).ListSessions.count name = 1 := by
  refine ⟨?_, fun other h => ?_, ?_⟩
  · simp [SessionManager.AddSession, SessionManager.GetSession, AList.lookup_insert]
  · simp [SessionManager.AddSession, SessionManager.GetSession, AList.lookup_insert_ne h]
  · apply List.count_eq_one_of_mem (AList.keys_nodup _)
    rw [← AList.mem_keys]
    simp [SessionManager.AddSession]

/-- Witness for C10: re-registering `a` replaces the instance, `b` is untouched. -/
theorem AddSession_GetSession_witness :
    (((NewSessionManager.AddSession "a" (some 1)).AddSession "b" (some 2)).AddSession "a"
          (some 3)).GetSession "a" = (some 3, none) ∧
      (((NewSessionManager.AddSession "a" (some 1)).AddSession "b" (some 2)).AddSession "a"
          (some 3)).GetSession "b" =
        ((NewSessionManager.AddSession "a" (some 1)).AddSession "b" (some 2)).GetSession "b" :=
  ⟨(AddSession_GetSession _ "a" (some 3)).1,
    (AddSession_GetSession _ "a" (some 3)).2.1 "b" (by decide)⟩

/-- C11: `GetSession name` fails with the session-not-found error exactly when no session
is registered under `name`, and succeeds exactly when one is; it fails for every name on
a fresh `SessionManager` and for `name` after `RemoveSession name`. -/
theorem GetSession_fails_iff (sm : SessionManager) (name : String) :
    (sm.GetSession name = (none, some (.msg ("session '" ++ name ++ "' not found"))) ↔
        name ∉ sm.ListSessions) ∧
      ((sm.GetSession name).2 = none ↔ name ∈ sm.ListSessions) ∧
      NewSessionManager.GetSession name =
        (none, some (.msg ("session '" ++ name ++ "' not found"))) ∧
      (sm.RemoveSession name).GetSession name =
        (none, some (.msg ("session '" ++ name ++ "' not found"))) := by
  have key : ∀ s : SessionManager,
      (s.GetSession name = (none, some (.msg ("session '" ++ name ++ "' not found"))) ↔
        name ∉ s.ListSessions) ∧ ((s.GetSession name).2 = none ↔ name ∈ s.ListSessions) := by
    intro s
    unfold SessionManager.GetSession SessionManager.ListSessions
    rw [← AList.mem_keys]
    cases h : s.sessions.lookup name with
    | none =>
      have hn : name ∉ s.sessions := AList.lookup_eq_none.1 h
      simp [hn]
    | some auth =>
      have hm : name ∈ s.sessions := AList.lookup_isSome.1 (by simp [h])
      simp [hm]
  refine ⟨(key sm).1, (key sm).2, ?_, ?_⟩
  · exact (key NewSessionManager).1.2 (by simp [SessionManager.ListSessions, NewSessionManager])
  · refine (key (sm.RemoveSession name)).1.2 ?_
    unfold SessionManager.ListSessions SessionManager.RemoveSession
    rw [← AList.mem_keys, AList.mem_erase]
    simp

/-- C12: `RemoveSession name` always returns (it has no error result): when `name` is
not registered the registry is exactly what it was; in every case `name` is no longer
registered afterwards, every other name is looked up as before, and the list of names is
the old one without `name`. -/
theorem RemoveSession_frame (sm : SessionManager) (name : String) :
    (name ∉ sm.ListSessions → (sm.RemoveSession name).sessions = sm.sessions) ∧
      name ∉ (sm.RemoveSession name).ListSessions ∧
      (∀ other, other ≠ name →
        (sm.RemoveSession name).GetSession other = sm.GetSession other) ∧
      (sm.RemoveSession name).ListSessions = sm.ListSessions.erase name := by
  refine ⟨fun h => ?_, ?_, fun other h => ?_, ?_⟩
  · exact AList.ext (List.kerase_of_not_mem_keys h)
  · unfold SessionManager.ListSessions SessionManager.RemoveSession
    rw [← AList.mem_keys, AList.mem_erase]
    simp
  · simp [SessionManager.RemoveSession, SessionManager.GetSession, AList.lookup_erase_ne h]
  · exact AList.keys_erase name sm.sessions

/-- Witness for C12: removing an unregistered name from a one-entry registry, and
removing `a` while `b` stays. -/
theorem RemoveSession_frame_witness :
    ((NewSessionManager.AddSession "a" (some 1)).RemoveSession "missing").sessions =
        (NewSessionManager.AddSession "a" (some 1)).sessions ∧
      (((NewSessionManager.AddSession "b" (some 2)).AddSession "a" (some 1)).RemoveSession
          "a").GetSession "b" =
        ((NewSessionManager.AddSession "b" (some 2)).AddSession "a" (some 1)).GetSession "b" :=
  ⟨(RemoveSession_frame (NewSessionManager.AddSession "a" (some 1)) "missing").1 (by decide),
    (RemoveSession_frame ((NewSessionManager.AddSession "b" (some 2)).AddSession "a" (some 1))
      "a").2.2.1 "b" (by decide)⟩

/-- After more calls, a name is registered exactly when the last call about it is an
`AddSession`, or there is none and it was registered before. -/
theorem mem_ListSessions_foldl (name : String) (ops : List SessionOp) (sm : SessionManager)
    (live : Bool) (h : name ∈ sm.ListSessions ↔ live = true) :
    name ∈ (ops.foldl SessionOp.apply sm).ListSessions ↔
      ops.foldl (fun live op => if op.name = name then op.isAdd else live) live = true := by
  induction ops generalizing sm live with
  | nil => simpa using h
  | cons op ops ih =>
    simp only [List.foldl_cons]
    apply ih
    unfold SessionManager.ListSessions at h ⊢
    rw [← AList.mem_keys] at h ⊢
    cases op with
    | add n auth =>
      simp only [SessionOp.apply, SessionManager.AddSession, AList.mem_insert, SessionOp.name,
        SessionOp.isAdd]
      by_cases hn : n = name
      · simp [hn]
      · have hn' : name ≠ n := fun e => hn e.symm
        simp [hn, hn', h]
    | remove n =>
      simp only [SessionOp.apply, SessionManager.RemoveSession, AList.mem_erase, SessionOp.name,
        SessionOp.isAdd]
      by_cases hn : n = name
      · simp [hn]
      · have hn' : name ≠ n := fun e => hn e.symm
        simp [hn, hn', h]

/-- A name no call is about keeps its status. -/
theorem addedNotRemoved_foldl_of_not_mem (name : String) (ops : List SessionOp) (live : Bool)
    (h : name ∉ ops.map SessionOp.name) :
    ops.foldl (fun live op => if op.name = name then op.isAdd else live) live = live := by
  induction ops generalizing live with
  | nil => rfl
  | cons op ops ih =>
    simp only [List.map_cons, List.mem_cons, not_or] at h
    have hn : ¬ op.name = name := fun e => h.1 e.symm
    simp only [List.foldl_cons, hn, if_false]
    exact ih live h.2

/-- C13: after any sequence of `AddSession` and `RemoveSession` calls on a fresh
`SessionManager`, `ListSessions` holds no name twice, holds exactly the names added and
not since removed, is a rearrangement of the list of those distinct names, and so has as
many elements; on a fresh manager it is empty. -/
theorem ListSessions_after_ops (ops : List SessionOp) :
    (runSessionOps ops).ListSessions.Nodup ∧
      (∀ name, name ∈ (runSessionOps ops).ListSessions ↔ addedNotRemoved ops name = true) ∧
      (runSessionOps ops).ListSessions.Perm (liveNames ops) ∧
      (runSessionOps ops).ListSessions.length = (liveNames ops).length ∧
      NewSessionManager.ListSessions = [] := by
  have hnd : (runSessionOps ops).ListSessions.Nodup := AList.keys_nodup _
  have hmem : ∀ name, name ∈ (runSessionOps ops).ListSessions ↔
      addedNotRemoved ops name = true := fun name =>
    mem_ListSessions_foldl name ops NewSessionManager false
      (by simp [SessionManager.ListSessions, NewSessionManager])
  have hperm : (runSessionOps ops).ListSessions.Perm (liveNames ops) := by
    refine (List.perm_ext_iff_of_nodup hnd ((List.nodup_dedup _).filter _)).2 fun name => ?_
    rw [hmem name]
    rw [List.mem_filter, List.mem_dedup]
    constructor
    · intro h
      refine ⟨?_, h⟩
      by_contra hn
      have := addedNotRemoved_foldl_of_not_mem name ops false hn
      unfold addedNotRemoved at h
      rw [this] at h
      cases h
    · exact fun h => h.2
  exact ⟨hnd, hmem, hperm, hperm.length_eq, rfl⟩

/-! ## Expiry checks and the expiry sweep -/

/-- What `IsTokenExpired` computes and what it touches: it answers whether the expiry is
known and before the clock reading, and only the count of clock readings can change. -/
theorem IsTokenExpired_eq (env : Env) (a : Authenticator) (w : World) :
    (a.IsTokenExpired env w).1 = a.expiredAt (env.clock w.clockReads) ∧
      (a.IsTokenExpired env w).2.authCalls = w.authCalls ∧
      (a.IsTokenExpired env w).2.reauthCalls = w.reauthCalls ∧
      (a.IsTokenExpired env w).2.sent = w.sent := by
  unfold Authenticator.IsTokenExpired Authenticator.expiredAt Time.IsZero Time.After
  by_cases hz : a.tokenExpiry.nanos = 0
  · simp [hz]
  · simp [hz]

/-- C18: `IsTokenExpired` returns true exactly when the cached expiry is known
(non-zero) and the current time is strictly after it; it returns false for an unknown
expiry and for any expiry not yet passed (so also inside the five-minute refresh
buffer); it returns only a boolean, and makes no `Authenticate` or `Reauth` call and
sends nothing. -/
theorem IsTokenExpired_iff (env : Env) (a : Authenticator) (w : World) :
    ((a.IsTokenExpired env w).1 = true ↔
        a.tokenExpiry.IsZero = false ∧
          a.tokenExpiry.nanos < (env.clock w.clockReads).nanos) ∧
      (a.tokenExpiry.IsZero = true → (a.IsTokenExpired env w).1 = false) ∧
      ((env.clock w.clockReads).nanos ≤ a.tokenExpiry.nanos →
        (a.IsTokenExpired env w).1 = false) ∧
      (a.IsTokenExpired env w).2.authCalls = w.authCalls ∧
      (a.IsTokenExpired env w).2.reauthCalls = w.reauthCalls ∧
      (a.IsTokenExpired env w).2.sent = w.sent := by
  obtain ⟨h1, h2, h3, h4⟩ := IsTokenExpired_eq env a w
  rw [h1]
  unfold Authenticator.expiredAt Time.IsZero
  refine ⟨by simp, fun h => by simp at h; simp [h], fun h => ?_, h2, h3, h4⟩
  simp only [decide_eq_false_iff_not, not_and, not_lt]
  exact fun _ => h

/-- Witness for C18: the scenario authenticator four minutes before its expiry is
inside the refresh buffer and is reported as not expired; with an unknown expiry too. -/
theorem IsTokenExpired_iff_witness :
    (demoAuth.IsTokenExpired (demoEnv (t2024 + 6 * Minute)) {}).1 = false ∧
      ({ demoAuth with tokenExpiry := ⟨0⟩ }.IsTokenExpired (demoEnv (t2024 + 6 * Minute))
        {}).1 = false :=
  ⟨(IsTokenExpired_iff (demoEnv (t2024 + 6 * Minute)) demoAuth {}).2.2.1 (by decide),
    (IsTokenExpired_iff (demoEnv (t2024 + 6 * Minute)) { demoAuth with tokenExpiry := ⟨0⟩ }
      {}).2.1 rfl⟩

/-- Looking a name up after a series of deletions. -/
theorem lookup_foldl_erase (names : List String) (t : AList (fun _ : String => AuthRef))
    (name : String) :
    (names.foldl (fun t n => t.erase n) t).lookup name =
      if name ∈ names then none else t.lookup name := by
  induction names generalizing t with
  | nil => simp
  | cons n names ih =>
    simp only [List.foldl_cons, ih, List.mem_cons]
    by_cases hmem : name ∈ names
    · simp [hmem]
    · by_cases hn : name = n
      · subst hn; simp [hmem, AList.lookup_erase]
      · simp [hmem, hn, AList.lookup_erase_ne hn]

/-- The names left after a series of deletions. -/
theorem keys_foldl_erase (names : List String) (t : AList (fun _ : String => AuthRef)) :
    (names.foldl (fun t n => t.erase n) t).keys =
      t.keys.filter (fun k => decide (k ∉ names)) := by
  induction names generalizing t with
  | nil => simp
  | cons n names ih =>
    simp only [List.foldl_cons, ih, AList.keys_erase]
    rw [(AList.keys_nodup t).erase_eq_filter n, List.filter_filter]
    apply List.filter_congr
    intro k _
    by_cases hk : k = n <;> by_cases hm : k ∈ names <;> simp [hk, hm]

/-- What `IsTokenExpired` does to the count of clock readings: at most one more. -/
theorem IsTokenExpired_clockReads (env : Env) (a : Authenticator) (w : World) :
    w.clockReads ≤ (a.IsTokenExpired env w).2.clockReads ∧
      (a.IsTokenExpired env w).2.clockReads ≤ w.clockReads + 1 := by
  unfold Authenticator.IsTokenExpired
  split_ifs <;> simp

/-- An expiry that is past at some time is past at every later time. -/
theorem expiredAt_mono (a : Authenticator) (t1 t2 : Time) (h : t1.nanos ≤ t2.nanos)
    (h1 : a.expiredAt t1 = true) : a.expiredAt t2 = true := by
  unfold Authenticator.expiredAt at h1 ⊢
  simp only [decide_eq_true_eq] at h1 ⊢
  exact ⟨h1.1, by omega⟩

/-- The loop of `CleanupExpiredSessions` over a list of entries with non-nil references,
each tested against its own reading of the clock, all readings lying between `lo` and
`hi`: the loop returns, having deleted and counted some of the entries, among them
every entry expired at `lo` and none that is not expired at `hi`, with no
authentication and nothing sent. -/
theorem sweep_foldlM_window (env : Env) (heap : Heap) (lo hi : Time)
    (l : List (Sigma (fun _ : String => AuthRef))) (hl : ∀ e ∈ l, e.2 ≠ none)
    (r : Nat) (s : SessionManager) (w : World)
    (hwin : ∀ n, w.clockReads ≤ n → n < w.clockReads + l.length →
      lo.nanos ≤ (env.clock n).nanos ∧ (env.clock n).nanos ≤ hi.nanos) :
    ∃ (removed : List (Sigma (fun _ : String => AuthRef))) (w' : World), removed.Sublist l ∧
      l.foldlM (SessionManager.sweepEntry env heap) (r, s, w) =
        some (r + removed.length,
          ⟨(removed.map Sigma.fst).foldl (fun t n => t.erase n) s.sessions⟩, w') ∧
      (∀ e ∈ l, entryExpiredAt heap lo e = true → e ∈ removed) ∧
      (∀ e ∈ removed, entryExpiredAt heap hi e = true) ∧
      w'.authCalls = w.authCalls ∧ w'.reauthCalls = w.reauthCalls ∧ w'.sent = w.sent := by
  induction l generalizing r s w with
  | nil =>
    exact ⟨[], w, List.Sublist.slnil, rfl, fun e he => absurd he (List.not_mem_nil e),
      fun e he => absurd he (List.not_mem_nil e), rfl, rfl, rfl⟩
  | cons e l ih =>
    have hl' : ∀ e' ∈ l, e'.2 ≠ none := fun e' h => hl e' (List.mem_cons_of_mem _ h)
    obtain ⟨name, auth⟩ := e
    cases auth with
    | none => exact absurd rfl (hl ⟨name, none⟩ (List.mem_cons_self _ _))
    | some addr =>
      obtain ⟨h1, h2, h3, h4⟩ := IsTokenExpired_eq env (heap addr) w
      obtain ⟨hc1, hc2⟩ := IsTokenExpired_clockReads env (heap addr) w
      obtain ⟨hlo, hhi⟩ := hwin w.clockReads (Nat.le_refl _) (by simp)
      rcases hI : (heap addr).IsTokenExpired env w with ⟨b, w1⟩
      rw [hI] at h1 h2 h3 h4 hc1 hc2
      simp only at h1 h2 h3 h4 hc1 hc2
      have hwin' : ∀ n, w1.clockReads ≤ n → n < w1.clockReads + l.length →
          lo.nanos ≤ (env.clock n).nanos ∧ (env.clock n).nanos ≤ hi.nanos := by
        intro n hn1 hn2
        refine hwin n (by omega) ?_
        simp only [List.length_cons]
        omega
      cases b with
      | true =>
        obtain ⟨rem, w', hsub, hf, hin, hout, ha, hr, hs⟩ :=
          ih hl' (r + 1) (s.RemoveSession name) w1 hwin'
        refine ⟨⟨name, some addr⟩ :: rem, w', hsub.cons₂ _, ?_, ?_, ?_,
          by rw [ha, h2], by rw [hr, h3], by rw [hs, h4]⟩
        · simp only [List.foldlM_cons, SessionManager.sweepEntry, hI, List.map_cons,
            List.foldl_cons, List.length_cons]
          show (l.foldlM (SessionManager.sweepEntry env heap)
            (r + 1, s.RemoveSession name, w1)) = _
          rw [hf]
          simp only [SessionManager.RemoveSession, Option.some.injEq, Prod.mk.injEq, and_true]
          omega
        · intro e he hexp
          rcases List.mem_cons.1 he with rfl | he
          · exact List.mem_cons_self _ _
          · exact List.mem_cons_of_mem _ (hin e he hexp)
        · intro e he
          rcases List.mem_cons.1 he with rfl | he
          · exact expiredAt_mono (heap addr) _ hi hhi h1.symm
          · exact hout e he
      | false =>
        obtain ⟨rem, w', hsub, hf, hin, hout, ha, hr, hs⟩ := ih hl' r s w1 hwin'
        refine ⟨rem, w', hsub.cons _, ?_, ?_, hout,
          by rw [ha, h2], by rw [hr, h3], by rw [hs, h4]⟩
        · simp only [List.foldlM_cons, SessionManager.sweepEntry, hI]
          show (l.foldlM (SessionManager.sweepEntry env heap) (r, s, w1)) = _
          rw [hf]
        · intro e he hexp
          rcases List.mem_cons.1 he with rfl | he
          · have := expiredAt_mono (heap addr) lo _ hlo hexp
            rw [← h1] at this
            cases this
          · exact hin e he hexp

/-- C14, as stated, fails: the clock is read once for each session, so with the clock
advancing during the sweep two sessions with the same cached expiry `t2024` part ways:
`b`, tested one second before `t2024`, stays, and `a`, tested one second after, is
removed; no single instant separates the removed sessions from the kept ones. And on a
registry holding a nil authenticator, which `AddSession` accepts, the sweep panics
instead of returning a count. -/
theorem CleanupExpiredSessions_counterexample :
    (sameExpiryHeap 1).tokenExpiry = (sameExpiryHeap 2).tokenExpiry ∧
      (twoSessions.CleanupExpiredSessions tickingEnv sameExpiryHeap {}).map
          (fun r => (r.1, r.2.1.ListSessions)) = some (1, ["b"]) ∧
      ((twoSessions.AddSession "x" none).CleanupExpiredSessions tickingEnv sameExpiryHeap
          {}).map (fun r => r.1) = none := by
  decide

/-- C14 (amended): on a registry whose registered references are all non-nil,
`CleanupExpiredSessions` returns, each session having been tested against its own
reading of the clock. With all readings of the sweep between `lo` and `hi`: a session
whose cached expiry is non-zero and strictly before `lo` is no longer registered; a
session whose expiry is zero or not before `hi` is registered under the same name with
the same reference; no name is added and no session changes its reference; the count
returned is the number of sessions removed, the registry size before minus the size
after; and no `Authenticate` or `Reauth` call is made and nothing is sent. -/
theorem CleanupExpiredSessions_window (env : Env) (heap : Heap) (sm : SessionManager)
    (w : World) (lo hi : Time)
    (hwin : ∀ n, w.clockReads ≤ n → n < w.clockReads + sm.ListSessions.length →
      lo.nanos ≤ (env.clock n).nanos ∧ (env.clock n).nanos ≤ hi.nanos)
    (hnonnil : ∀ name, sm.sessions.lookup name ≠ some none) :
    ∃ removed sm' w', sm.CleanupExpiredSessions env heap w = some (removed, sm', w') ∧
      (∀ name addr, sm.sessions.lookup name = some (some addr) →
        (heap addr).expiredAt lo = true → sm'.sessions.lookup name = none) ∧
      (∀ name addr, sm.sessions.lookup name = some (some addr) →
        (heap addr).expiredAt hi = false → sm'.sessions.lookup name = some (some addr)) ∧
      (∀ name, sm'.sessions.lookup name = none ∨
        sm'.sessions.lookup name = sm.sessions.lookup name) ∧
      removed + sm'.ListSessions.length = sm.ListSessions.length ∧
      w'.authCalls = w.authCalls ∧ w'.reauthCalls = w.reauthCalls ∧ w'.sent = w.sent := by
  have hl : ∀ e ∈ sm.sessions.entries, e.2 ≠ none := by
    rintro ⟨name, auth⟩ he hnone
    simp only at hnone
    subst hnone
    exact hnonnil name (AList.mem_lookup_iff.2 he)
  have hlen : sm.ListSessions.length = sm.sessions.entries.length := by
    show (sm.sessions.entries.map Sigma.fst).length = _
    rw [List.length_map]
  obtain ⟨rem, w', hsub, hf, hin, hout, ha, hr, hs⟩ :=
    sweep_foldlM_window env heap lo hi sm.sessions.entries hl 0 sm w (by rwa [hlen] at hwin)
  refine ⟨_, _, w', by unfold SessionManager.CleanupExpiredSessions; exact hf,
    ?_, ?_, ?_, ?_, ha, hr, hs⟩
  · intro name addr hlook hexp
    have he : (⟨name, some addr⟩ : Sigma (fun _ : String => AuthRef)) ∈ sm.sessions.entries :=
      AList.mem_lookup_iff.1 hlook
    have hm : name ∈ rem.map Sigma.fst := List.mem_map.2 ⟨_, hin _ he hexp, rfl⟩
    simp only [lookup_foldl_erase]
    rw [if_pos hm]
  · intro name addr hlook hexp
    have he : (⟨name, some addr⟩ : Sigma (fun _ : String => AuthRef)) ∈ sm.sessions.entries :=
      AList.mem_lookup_iff.1 hlook
    have hm : name ∉ rem.map Sigma.fst := by
      intro h
      obtain ⟨e', he', hfst⟩ := List.mem_map.1 h
      have heq : e' = ⟨name, some addr⟩ :=
        sm.sessions.nodupKeys.eq_of_fst_eq (hsub.subset he') he hfst
      have := hout e' he'
      rw [heq, show entryExpiredAt heap hi ⟨name, some addr⟩ = (heap addr).expiredAt hi from rfl,
        hexp] at this
      cases this
    simp only [lookup_foldl_erase]
    rw [if_neg hm, hlook]
  · intro name
    simp only [lookup_foldl_erase]
    by_cases hm : name ∈ rem.map Sigma.fst
    · exact Or.inl (if_pos hm)
    · exact Or.inr (if_neg hm)
  · show 0 + rem.length + (AList.keys (List.foldl _ _ _)).length = sm.sessions.keys.length
    rw [keys_foldl_erase]
    have hsubk : (rem.map Sigma.fst).Sublist sm.sessions.keys := hsub.map Sigma.fst
    have hnd : (rem.map Sigma.fst).Nodup := (AList.keys_nodup sm.sessions).sublist hsubk
    have hperm : (sm.sessions.keys.filter (fun k => decide (k ∈ rem.map Sigma.fst))).Perm
        (rem.map Sigma.fst) := by
      refine (List.perm_ext_iff_of_nodup ((AList.keys_nodup sm.sessions).filter _) hnd).2
        fun k => ?_
      simp only [List.mem_filter, decide_eq_true_eq]
      exact ⟨fun h => h.2, fun h => ⟨hsubk.subset h, h⟩⟩
    have hsplit := List.length_eq_length_filter_add (l := sm.sessions.keys)
      (fun k => decide (k ∈ rem.map Sigma.fst))
    have hcongr : sm.sessions.keys.filter (fun k => decide (k ∉ rem.map Sigma.fst)) =
        sm.sessions.keys.filter (fun k => !decide (k ∈ rem.map Sigma.fst)) := by
      apply List.filter_congr
      intro k _
      by_cases hk : k ∈ rem.map Sigma.fst <;> simp [hk]
    rw [hcongr]
    have hl1 := hperm.length_eq
    rw [List.length_map] at hl1
    omega

/-- Witness for C14 (amended): three sessions swept while the clock advances from one
second before `t2024` to three seconds after; the session that expired ten minutes
earlier is removed, the one expiring ten minutes later and the one with unknown expiry
stay, and the count is 1. -/
theorem CleanupExpiredSessions_window_witness :
    (∃ removed sm' w', sweepManager.CleanupExpiredSessions tickingEnv sweepHeap {} =
        some (removed, sm', w') ∧
      (∀ name addr, sweepManager.sessions.lookup name = some (some addr) →
        (sweepHeap addr).expiredAt ⟨t2024 - Second⟩ = true →
        sm'.sessions.lookup name = none) ∧
      (∀ name addr, sweepManager.sessions.lookup name = some (some addr) →
        (sweepHeap addr).expiredAt ⟨t2024 + 3 * Second⟩ = false →
        sm'.sessions.lookup name = some (some addr)) ∧
      (∀ name, sm'.sessions.lookup name = none ∨
        sm'.sessions.lookup name = sweepManager.sessions.lookup name) ∧
      removed + sm'.ListSessions.length = sweepManager.ListSessions.length ∧
      w'.authCalls = ({} : World).authCalls ∧ w'.reauthCalls = ({} : World).reauthCalls ∧
      w'.sent = ({} : World).sent) ∧
      (sweepManager.CleanupExpiredSessions tickingEnv sweepHeap {}).map
          (fun r => (r.1, r.2.1.ListSessions)) = some (1, ["unknown", "fresh"]) :=
  ⟨CleanupExpiredSessions_window tickingEnv sweepHeap sweepManager {} ⟨t2024 - Second⟩
      ⟨t2024 + 3 * Second⟩
      (fun n _ hn => by
        have hlen : sweepManager.ListSessions.length = 3 := by decide
        rw [hlen] at hn
        have hcases : n = 0 ∨ n = 1 ∨ n = 2 := by
          have : n < 3 := by simpa using hn
          omega
        rcases hcases with rfl | rfl | rfl <;> decide)
      (fun name h => by
        have hall : ∀ e ∈ sweepManager.sessions.entries, e.2 ≠ none := by decide
        exact hall _ (AList.mem_lookup_iff.1 h) rfl),
    by decide⟩

/-- What a failed token introspection leaves behind, whatever the locator answers: once
the identity exchange has issued a token, `Authenticate` caches that token and keeps the
expiry that was cached before the call. -/
theorem Authenticate_introspection_failure_expiry (env : Env) (a : Authenticator) (w : World)
    (p : ProviderClient) (e : GoError)
    (h : (env.identity w.authCalls a.authOptions).AuthenticatedClient = .ok p)
    (hi : (env.identity w.authCalls a.authOptions).NewIdentityV3 = .error e ∨
      (env.identity w.authCalls a.authOptions).TokensGet = .error e) :
    (a.Authenticate env w).2.1.token = p.TokenID ∧
      (a.Authenticate env w).2.1.tokenExpiry = a.tokenExpiry := by
  have hu : (Authenticator.updateTokenExpiry (env.identity w.authCalls a.authOptions)
      { a with provider := some p.TokenID, token := p.TokenID }).2 =
      { a with provider := some p.TokenID, token := p.TokenID } := by
    unfold Authenticator.updateTokenExpiry
    rcases hi with hi | hi
    · simp [hi]
    · cases hv : (env.identity w.authCalls a.authOptions).NewIdentityV3 <;> simp [hi]
  cases hp : p.EndpointLocator with
  | error err => rw [Authenticate_locate_error env a w p err h hp, hu]; exact ⟨rfl, rfl⟩
  | ok ep => rw [Authenticate_success env a w p ep h hp, hu]; exact ⟨rfl, rfl⟩

/-! ## Request outcomes -/

/-- Nothing is sent by `Authenticator.GetToken`. -/
theorem Authenticator_GetToken_sent (env : Env) (a : Authenticator) (w : World) :
    (a.GetToken env w).2.2.sent = w.sent := by
  by_cases hz : a.tokenExpiry.IsZero = true
  · simp [Authenticator.GetToken, hz]
  · by_cases hbuf : Until (env.clock w.clockReads) a.tokenExpiry < 5 * Minute
    · cases hre : a.autoReauth with
      | false => simp [Authenticator.GetToken, hz, hbuf, hre]
      | true =>
        have hw := Authenticate_world env a { w with clockReads := w.clockReads + 1 }
        rcases hA : a.Authenticate env { w with clockReads := w.clockReads + 1 } with
          ⟨err, a', w'⟩
        rw [hA] at hw
        simp only at hw
        cases err <;> simp [Authenticator.GetToken, hz, hbuf, hre, hA, hw]
    · simp [Authenticator.GetToken, hz, hbuf]

/-- Nothing is sent by the `GetToken` of any provider. -/
theorem TokenProvider_GetToken_sent (env : Env) (p : TokenProvider) (w : World) :
    (p.GetToken env w).2.2.sent = w.sent := by
  cases p with
  | authenticator a => exact Authenticator_GetToken_sent env a w
  | tokenAuthenticator t => rfl
  | other tok err ep => rfl

/-- C16: if the provider's `GetToken` fails, `doRequest` returns no response and an
error wrapping the provider's error, and no HTTP request is sent; in particular every
request through a client built by `NewClientWithToken` with an empty token fails with
the wrapped empty-token error, nothing sent. -/
theorem doRequest_token_error (env : Env) (fuel : Nat) (w : World) (method path : String)
    (body : Option Body) :
    (∀ (c : Client) (tok : String) (err : GoError) (p1 : TokenProvider) (w1 : World),
        c.authenticator.GetToken env w = ((tok, some err), p1, w1) →
        c.doRequest env (fuel + 1) w method path body =
            some ((none, some (.wrap "failed to get valid token: " err)),
              { c with authenticator := p1 }, w1) ∧
          w1.sent = w.sent) ∧
      (∀ endpoint : String,
        (NewClientWithToken endpoint "").doRequest env (fuel + 1) w method path body =
          some ((none, some (.wrap "failed to get valid token: " (.msg "token is empty"))),
            NewClientWithToken endpoint "", w)) := by
  have main : ∀ (c : Client) (tok : String) (err : GoError) (p1 : TokenProvider) (w1 : World),
      c.authenticator.GetToken env w = ((tok, some err), p1, w1) →
      c.doRequest env (fuel + 1) w method path body =
          some ((none, some (.wrap "failed to get valid token: " err)),
            { c with authenticator := p1 }, w1) ∧
        w1.sent = w.sent := by
    intro c tok err p1 w1 h
    have hs := TokenProvider_GetToken_sent env c.authenticator w
    rw [h] at hs
    refine ⟨?_, hs⟩
    unfold Client.doRequest
    simp [Client.doRequestPass, h]
  refine ⟨main, fun endpoint => ?_⟩
  exact (main (NewClientWithToken endpoint "") "" (.msg "token is empty")
    (.tokenAuthenticator (NewTokenAuthenticator endpoint "")) w rfl).1

/-- Witness for C16: the scenario authenticator with auto-reauth off, four minutes
before expiry, refuses the token and the request is not sent. -/
theorem doRequest_token_error_witness :
    (NewClientWithAuthenticator (.authenticator { demoAuth with autoReauth := false })).doRequest
          (demoEnv (t2024 + 6 * Minute)) (0 + 1) {} "GET" "/audits" none =
        some ((none, some (.wrap "failed to get valid token: "
            (.msg "token expired and auto-reauth is disabled"))),
          { NewClientWithAuthenticator (.authenticator { demoAuth with autoReauth := false })
              with authenticator := .authenticator { demoAuth with autoReauth := false } },
          { clockReads := 1 }) ∧
      ({ clockReads := 1 } : World).sent = ({} : World).sent :=
  (doRequest_token_error (demoEnv (t2024 + 6 * Minute)) 0 {} "GET" "/audits" none).1
    (NewClientWithAuthenticator (.authenticator { demoAuth with autoReauth := false }))
    "" (.msg "token expired and auto-reauth is disabled")
    (.authenticator { demoAuth with autoReauth := false }) { clockReads := 1 } (by decide)

/-- A pass of `doRequest` that returns without error returns a response whose status is
in 200..299, and a pass that returns an error returns no response. -/
theorem doRequestPass_returns (env : Env) (c : Client) (w : World) (method path : String)
    (body : Option Body) (r : Option Response) (e : Option GoError) (c' : Client) (w' : World)
    (h : c.doRequestPass env w method path body = (.returns r e, c', w')) :
    (e = none ↔ ∃ resp, r = some resp ∧ 200 ≤ resp.StatusCode ∧ resp.StatusCode ≤ 299) ∧
      (e ≠ none → r = none) := by
  rcases hG : c.authenticator.GetToken env w with ⟨⟨tok, err⟩, p1, w1⟩
  cases err with
  | some err =>
    simp only [Client.doRequestPass, hG, Prod.mk.injEq, Outcome.returns.injEq] at h
    obtain ⟨⟨rfl, rfl⟩, -, -⟩ := h
    simp
  | none =>
    cases hb : marshalBody body with
    | error err =>
      simp only [Client.doRequestPass, hG, hb, Prod.mk.injEq, Outcome.returns.injEq] at h
      obtain ⟨⟨rfl, rfl⟩, -, -⟩ := h
      simp
    | ok bodyReader =>
      cases hreq : env.NewRequest method (c.endpoint ++ path) with
      | error err =>
        simp only [Client.doRequestPass, hG, hb, hreq, Prod.mk.injEq, Outcome.returns.injEq] at h
        obtain ⟨⟨rfl, rfl⟩, -, -⟩ := h
        simp
      | ok url =>
        cases hdo : env.Do w1.sent.length
            ⟨method, url, tok, "infra-optim " ++ c.apiVersion, bodyReader⟩ with
        | error err =>
          simp only [Client.doRequestPass, hG, hb, hreq, hdo, Prod.mk.injEq,
            Outcome.returns.injEq] at h
          obtain ⟨⟨rfl, rfl⟩, -, -⟩ := h
          simp
        | ok resp =>
          by_cases h401 : resp.StatusCode = 401
          · cases p1 with
            | authenticator auth =>
              cases hre : auth.autoReauth with
              | false =>
                simp [Client.doRequestPass, hG, hb, hreq, hdo, h401, hre] at h
                obtain ⟨⟨rfl, rfl⟩, -, -⟩ := h
                simp
              | true =>
                rcases hR : auth.Reauth env
                  { w1 with sent := w1.sent ++
                      [⟨method, url, tok, "infra-optim " ++ c.apiVersion, bodyReader⟩] } with
                  ⟨rerr, a2, w2⟩
                cases rerr with
                | none => simp [Client.doRequestPass, hG, hb, hreq, hdo, h401, hre, hR] at h
                | some rerr =>
                  simp [Client.doRequestPass, hG, hb, hreq, hdo, h401, hre, hR] at h
                  obtain ⟨⟨rfl, rfl⟩, -, -⟩ := h
                  simp
            | tokenAuthenticator t =>
              simp [Client.doRequestPass, hG, hb, hreq, hdo, h401] at h
              obtain ⟨⟨rfl, rfl⟩, -, -⟩ := h
              simp
            | other t e' ep =>
              simp [Client.doRequestPass, hG, hb, hreq, hdo, h401] at h
              obtain ⟨⟨rfl, rfl⟩, -, -⟩ := h
              simp
          · by_cases hst : resp.StatusCode < 200 ∨ resp.StatusCode ≥ 300
            · simp only [Client.doRequestPass, hG, hb, hreq, hdo, h401, hst, if_false, if_true,
                Prod.mk.injEq, Outcome.returns.injEq] at h
              obtain ⟨⟨rfl, rfl⟩, -, -⟩ := h
              simp
            · simp only [Client.doRequestPass, hG, hb, hreq, hdo, h401, hst, if_false,
                Prod.mk.injEq, Outcome.returns.injEq] at h
              obtain ⟨⟨rfl, rfl⟩, -, -⟩ := h
              refine ⟨⟨fun _ => ⟨resp, rfl, ?_, ?_⟩, fun _ => rfl⟩, fun hne => absurd rfl hne⟩
              · omega
              · omega

/-- Whatever `doRequest` returns, it returns no error exactly when it returns a response
whose status is in 200..299, and an error comes with no response. -/
theorem doRequest_returns (env : Env) (n : Nat) (c : Client) (w : World) (method path : String)
    (body : Option Body) (r : Option Response) (e : Option GoError) (c' : Client) (w' : World)
    (h : c.doRequest env n w method path body = some ((r, e), c', w')) :
    (e = none ↔ ∃ resp, r = some resp ∧ 200 ≤ resp.StatusCode ∧ resp.StatusCode ≤ 299) ∧
      (e ≠ none → r = none) := by
  induction n generalizing c w with
  | zero => simp [Client.doRequest] at h
  | succ n ih =>
    unfold Client.doRequest at h
    rcases hp : c.doRequestPass env w method path body with ⟨o, c1, w1⟩
    rw [hp] at h
    cases o with
    | returns r1 e1 =>
      simp only [Option.some.injEq, Prod.mk.injEq] at h
      obtain ⟨⟨rfl, rfl⟩, rfl, rfl⟩ := h
      exact doRequestPass_returns env c w method path body _ _ _ _ hp
    | retry => exact ih c1 w1 h

/-- C17, as stated, fails: `GetGoal("a b")` asks for the path `/goals/a b`; answered 404,
`doRequest` returns an `APIError` whose URL is the text of the request URL,
`https://watcher.example/v1/goals/a%20b`, which is not the client endpoint followed by
the path. -/
theorem doRequest_status_url_counterexample :
    ((NewClientWithToken "https://watcher.example" "tok").doRequest escapingEnv 1 {} "GET"
        "/goals/a b" none).map (fun r => r.1) =
      some (none, some (.api ⟨404, "not found", "https://watcher.example/v1/goals/a%20b",
        "GET"⟩)) ∧
      "https://watcher.example/v1/goals/a%20b" ≠
        (NewClientWithToken "https://watcher.example" "tok").endpoint ++ "/goals/a b" := by
  decide

/-- C17 (amended): once the request has been built and answered with some status: if the
status is in 200..299 `doRequest` returns that response and no error; if it is outside
200..299 and not 401 it returns no response and an `APIError` carrying that status, the
response body as message, the request method, and as URL the text `url` of the URL of
the request that `http.NewRequest` built from the client endpoint followed by the path,
the same URL the request was sent to. Whatever the answers, `doRequest` returns a
response with no error only with a status in 200..299. -/
theorem doRequest_status (env : Env) (fuel : Nat) (c : Client) (w w1 : World)
    (p1 : TokenProvider) (token method path : String) (body : Option Body)
    (bodyReader : Option String) (url : String) (resp : Response)
    (htok : c.authenticator.GetToken env w = ((token, none), p1, w1))
    (hbody : marshalBody body = .ok bodyReader)
    (hreq : env.NewRequest method (c.endpoint ++ path) = .ok url)
    (hans : env.Do w1.sent.length
      ⟨method, url, token, "infra-optim " ++ c.apiVersion, bodyReader⟩ = .ok resp) :
    (200 ≤ resp.StatusCode ∧ resp.StatusCode ≤ 299 →
        c.doRequest env (fuel + 1) w method path body =
          some ((some resp, none), { c with authenticator := p1 },
            { w1 with sent := w1.sent ++
                [⟨method, url, token, "infra-optim " ++ c.apiVersion, bodyReader⟩] })) ∧
      (¬ (200 ≤ resp.StatusCode ∧ resp.StatusCode ≤ 299) → resp.StatusCode ≠ 401 →
        c.doRequest env (fuel + 1) w method path body =
          some ((none, some (.api ⟨resp.StatusCode, resp.Body, url, method⟩)),
            { c with authenticator := p1 },
            { w1 with sent := w1.sent ++
                [⟨method, url, token, "infra-optim " ++ c.apiVersion, bodyReader⟩] })) ∧
      (∀ n r e c' w', c.doRequest env n w method path body = some ((r, e), c', w') →
        (e = none ↔ ∃ resp', r = some resp' ∧ 200 ≤ resp'.StatusCode ∧
          resp'.StatusCode ≤ 299)) := by
  refine ⟨fun h2 => ?_, fun h2 h401 => ?_, fun n r e c' w' h => ?_⟩
  · have h401 : resp.StatusCode ≠ 401 := by omega
    have hst : ¬ (resp.StatusCode < 200 ∨ resp.StatusCode ≥ 300) := by omega
    unfold Client.doRequest
    simp [Client.doRequestPass, htok, hbody, hreq, hans, h401, hst]
  · have hst : resp.StatusCode < 200 ∨ resp.StatusCode ≥ 300 := by omega
    unfold Client.doRequest
    simp [Client.doRequestPass, htok, hbody, hreq, hans, h401, hst]
  · exact (doRequest_returns env n c w method path body r e c' w' h).1

/-- Witness for C17 (amended): a client built from a token, answered 404 with body
`gone`. -/
theorem doRequest_status_witness :
    (NewClientWithToken "https://watcher.example" "tok").doRequest
        { demoEnv t2024 with Do := fun _ _ => .ok ⟨404, "gone"⟩ } (0 + 1) {} "GET" "/audits/x"
        none =
      some ((none, some (.api ⟨404, "gone", "https://watcher.example/v1/audits/x", "GET"⟩)),
        { NewClientWithToken "https://watcher.example" "tok" with
          authenticator := .tokenAuthenticator ⟨"https://watcher.example", "tok"⟩ },
        { ({} : World) with sent := ({} : World).sent ++
            [⟨"GET", "https://watcher.example/v1/audits/x", "tok",
              "infra-optim " ++ (NewClientWithToken "https://watcher.example" "tok").apiVersion,
              none⟩] }) :=
  (doRequest_status { demoEnv t2024 with Do := fun _ _ => .ok ⟨404, "gone"⟩ } 0
    (NewClientWithToken "https://watcher.example" "tok") {} {}
    (.tokenAuthenticator ⟨"https://watcher.example", "tok"⟩) "tok" "GET" "/audits/x" none none
    "https://watcher.example/v1/audits/x" ⟨404, "gone"⟩ rfl rfl rfl rfl).2.1
    (by decide) (by decide)

/-! ## Requests when no re-authentication succeeds

`Authenticate` asks the provider's `EndpointLocator` with `EndpointOpts{Type:
"infra-optim"}`, naming no `Availability` (auth.go, lines 107 to 111). The locator of
gophercloud rejects such options, so the locator of a provider returned by the identity
exchange never yields an endpoint. The theorems of this section take that as their
hypothesis on the environment. -/

/-- When the locator never yields an endpoint, `Authenticate` returns an error. -/
theorem Authenticate_fails_of_locator (env : Env) (a : Authenticator) (w : World)
    (hloc : ∀ n o p, (env.identity n o).AuthenticatedClient = .ok p →
      ∃ e, p.EndpointLocator = .error e) :
    ∃ e, (a.Authenticate env w).1 = some e := by
  cases hc : (env.identity w.authCalls a.authOptions).AuthenticatedClient with
  | error e => exact ⟨_, by rw [Authenticate_exchange_error env a w e hc]⟩
  | ok p =>
    obtain ⟨e, he⟩ := hloc _ _ p hc
    exact ⟨_, by rw [Authenticate_locate_error env a w p e hc he]⟩

/-- No `Reauth` is called by `Authenticator.GetToken`. -/
theorem Authenticator_GetToken_reauthCalls (env : Env) (a : Authenticator) (w : World) :
    (a.GetToken env w).2.2.reauthCalls = w.reauthCalls := by
  by_cases hz : a.tokenExpiry.IsZero = true
  · simp [Authenticator.GetToken, hz]
  · by_cases hbuf : Until (env.clock w.clockReads) a.tokenExpiry < 5 * Minute
    · cases hre : a.autoReauth with
      | false => simp [Authenticator.GetToken, hz, hbuf, hre]
      | true =>
        have hw := Authenticate_world env a { w with clockReads := w.clockReads + 1 }
        rcases hA : a.Authenticate env { w with clockReads := w.clockReads + 1 } with
          ⟨err, a', w'⟩
        rw [hA] at hw
        simp only at hw
        cases err <;> simp [Authenticator.GetToken, hz, hbuf, hre, hA, hw]
    · simp [Authenticator.GetToken, hz, hbuf]

/-- No `Reauth` is called by the `GetToken` of any provider. -/
theorem TokenProvider_GetToken_reauthCalls (env : Env) (p : TokenProvider) (w : World) :
    (p.GetToken env w).2.2.reauthCalls = w.reauthCalls := by
  cases p with
  | authenticator a => exact Authenticator_GetToken_reauthCalls env a w
  | tokenAuthenticator t => rfl
  | other tok err ep => rfl

/-- A pass of `doRequest` when the locator never yields an endpoint: it never reaches
the recursive call, sends at most one request and calls `Reauth` at most once; when it
does call `Reauth`, one request was sent and the pass returns the re-authentication
error. -/
theorem doRequestPass_locator_rejects (env : Env) (c : Client) (w : World)
    (method path : String) (body : Option Body)
    (hloc : ∀ n o p, (env.identity n o).AuthenticatedClient = .ok p →
      ∃ e, p.EndpointLocator = .error e) :
    (c.doRequestPass env w method path body).1 ≠ .retry ∧
      (c.doRequestPass env w method path body).2.2.reauthCalls ≤ w.reauthCalls + 1 ∧
      (c.doRequestPass env w method path body).2.2.sent.length ≤ w.sent.length + 1 ∧
      ((c.doRequestPass env w method path body).2.2.reauthCalls = w.reauthCalls + 1 →
        (c.doRequestPass env w method path body).2.2.sent.length = w.sent.length + 1 ∧
        ∃ e, (c.doRequestPass env w method path body).1 =
          .returns none (some (.wrap "re-authentication failed: " e))) := by
  have hs1 := TokenProvider_GetToken_sent env c.authenticator w
  have hr1 := TokenProvider_GetToken_reauthCalls env c.authenticator w
  rcases hG : c.authenticator.GetToken env w with ⟨⟨tok, err⟩, p1, w1⟩
  rw [hG] at hs1 hr1
  simp only at hs1 hr1
  cases err with
  | some err =>
    have hp : c.doRequestPass env w method path body =
        (.returns none (some (.wrap "failed to get valid token: " err)),
          { c with authenticator := p1 }, w1) := by
      simp [Client.doRequestPass, hG]
    rw [hp]
    exact ⟨by simp, by simp [hr1], by simp [hs1], fun h => by simp [hr1] at h⟩
  | none =>
    cases hb : marshalBody body with
    | error err =>
      have hp : c.doRequestPass env w method path body =
          (.returns none (some (.wrap "failed to marshal request body: " err)),
            { c with authenticator := p1 }, w1) := by
        simp [Client.doRequestPass, hG, hb]
      rw [hp]
      exact ⟨by simp, by simp [hr1], by simp [hs1], fun h => by simp [hr1] at h⟩
    | ok bodyReader =>
      cases hreq : env.NewRequest method (c.endpoint ++ path) with
      | error err =>
        have hp : c.doRequestPass env w method path body =
            (.returns none (some (.wrap "failed to create request: " err)),
              { c with authenticator := p1 }, w1) := by
          simp [Client.doRequestPass, hG, hb, hreq]
        rw [hp]
        exact ⟨by simp, by simp [hr1], by simp [hs1], fun h => by simp [hr1] at h⟩
      | ok url =>
        cases hdo : env.Do w1.sent.length
            ⟨method, url, tok, "infra-optim " ++ c.apiVersion, bodyReader⟩ with
        | error err =>
          have hp : c.doRequestPass env w method path body =
              (.returns none (some (.wrap "request failed: " err)),
                { c with authenticator := p1 },
                { w1 with sent := w1.sent ++
                    [⟨method, url, tok, "infra-optim " ++ c.apiVersion, bodyReader⟩] }) := by
            simp [Client.doRequestPass, hG, hb, hreq, hdo]
          rw [hp]
          exact ⟨by simp, by simp [hr1], by simp [hs1], fun h => by simp [hr1] at h⟩
        | ok resp =>
          by_cases h401 : resp.StatusCode = 401
          · have hplain : ∀ p : TokenProvider,
                (∀ auth, p = .authenticator auth → auth.autoReauth = false) → p = p1 →
                c.doRequestPass env w method path body =
                  (.returns none
                    (some (.msg "authentication failed: token expired or invalid")),
                    { c with authenticator := p1 },
                    { w1 with sent := w1.sent ++
                        [⟨method, url, tok, "infra-optim " ++ c.apiVersion, bodyReader⟩] }) := by
              intro p hp hpe
              subst hpe
              cases p with
              | authenticator auth =>
                simp [Client.doRequestPass, hG, hb, hreq, hdo, h401, hp auth rfl]
              | tokenAuthenticator t => simp [Client.doRequestPass, hG, hb, hreq, hdo, h401]
              | other t e' ep => simp [Client.doRequestPass, hG, hb, hreq, hdo, h401]
            by_cases hauto : ∃ auth, p1 = .authenticator auth ∧ auth.autoReauth = true
            · obtain ⟨auth, rfl, hre⟩ := hauto
              obtain ⟨e, he⟩ := Authenticate_fails_of_locator env auth
                ⟨w1.authCalls, w1.reauthCalls + 1, w1.clockReads,
                  w1.sent ++ [⟨method, url, tok, "infra-optim " ++ c.apiVersion, bodyReader⟩]⟩ hloc
              have hw := Authenticate_world env auth
                ⟨w1.authCalls, w1.reauthCalls + 1, w1.clockReads,
                  w1.sent ++ [⟨method, url, tok, "infra-optim " ++ c.apiVersion, bodyReader⟩]⟩
              rcases hA : auth.Authenticate env
                ⟨w1.authCalls, w1.reauthCalls + 1, w1.clockReads,
                  w1.sent ++ [⟨method, url, tok, "infra-optim " ++ c.apiVersion, bodyReader⟩]⟩ with ⟨rerr, a2, w2⟩
              rw [hA] at he hw
              simp only at he hw
              subst he hw
              have hp : c.doRequestPass env w method path body =
                  (.returns none (some (.wrap "re-authentication failed: " e)),
                    { c with authenticator := .authenticator a2 },
                    ⟨w1.authCalls + 1, w1.reauthCalls + 1, w1.clockReads,
                      w1.sent ++
                        [⟨method, url, tok, "infra-optim " ++ c.apiVersion, bodyReader⟩]⟩) := by
                simp [Client.doRequestPass, hG, hb, hreq, hdo, h401, hre,
                  Authenticator.Reauth, hA]
              rw [hp]
              exact ⟨by simp, by simp [hr1], by simp [hs1],
                fun _ => ⟨by simp [hs1], e, rfl⟩⟩
            · have hno : ∀ auth, p1 = .authenticator auth → auth.autoReauth = false := by
                intro auth hpa
                cases hx : auth.autoReauth with
                | false => rfl
                | true => exact absurd ⟨auth, hpa, hx⟩ hauto
              rw [hplain p1 hno rfl]
              exact ⟨by simp, by simp [hr1], by simp [hs1], fun h => by simp [hr1] at h⟩
          · by_cases hst : resp.StatusCode < 200 ∨ resp.StatusCode ≥ 300
            · have hp : c.doRequestPass env w method path body =
                  (.returns none (some (.api ⟨resp.StatusCode, resp.Body, url, method⟩)),
                    { c with authenticator := p1 },
                    { w1 with sent := w1.sent ++
                        [⟨method, url, tok, "infra-optim " ++ c.apiVersion, bodyReader⟩] }) := by
                simp [Client.doRequestPass, hG, hb, hreq, hdo, h401, hst]
              rw [hp]
              exact ⟨by simp, by simp [hr1], by simp [hs1], fun h => by simp [hr1] at h⟩
            · have hp : c.doRequestPass env w method path body =
                  (.returns (some resp) none,
                    { c with authenticator := p1 },
                    { w1 with sent := w1.sent ++
                        [⟨method, url, tok, "infra-optim " ++ c.apiVersion, bodyReader⟩] }) := by
                simp [Client.doRequestPass, hG, hb, hreq, hdo, h401, hst]
              rw [hp]
              exact ⟨by simp, by simp [hr1], by simp [hs1], fun h => by simp [hr1] at h⟩

/-- C5: through every client, so also one bound to an authenticator with auto-reauth,
and whatever the server answers, a `doRequest` call returns in its first pass (for any
recursion bound), having called `Reauth` at most once and sent the request at most
once, so at most twice. The locator never yields an endpoint, so no `Reauth` succeeds
and no retry takes place: when `Reauth` was called, one request had been sent and the
call returns the re-authentication error. -/
theorem doRequest_at_most_one_reauth (env : Env) (fuel : Nat) (c : Client)
    (w : World) (method path : String) (body : Option Body)
    (hloc : ∀ n o p, (env.identity n o).AuthenticatedClient = .ok p →
      ∃ e, p.EndpointLocator = .error e) :
    ∃ r c' w', c.doRequest env (fuel + 1) w method path body = some (r, c', w') ∧
      w'.reauthCalls ≤ w.reauthCalls + 1 ∧
      w'.sent.length ≤ w.sent.length + 1 ∧
      (c.doRequestPass env w method path body).1 ≠ .retry ∧
      (w'.reauthCalls = w.reauthCalls + 1 →
        w'.sent.length = w.sent.length + 1 ∧
        ∃ e, r = (none, some (.wrap "re-authentication failed: " e))) := by
  obtain ⟨h1, h2, h3, h4⟩ := doRequestPass_locator_rejects env c w method path body hloc
  rcases hp : c.doRequestPass env w method path body with ⟨o, c1, w1⟩
  rw [hp] at h1 h2 h3 h4
  simp only at h1 h2 h3 h4
  cases o with
  | retry => exact absurd rfl h1
  | returns resp err =>
    refine ⟨(resp, err), c1, w1, ?_, h2, h3, by simp, fun h => ?_⟩
    · unfold Client.doRequest
      rw [hp]
    · obtain ⟨hs, e, he⟩ := h4 h
      simp only [Outcome.returns.injEq] at he
      exact ⟨hs, e, by rw [he.1, he.2]⟩

/-- Witness for C5: the scenario client, whose token the server rejects with 401. One
request is sent, `Reauth` is called once and fails at the locator, and the call returns
the re-authentication error. -/
theorem doRequest_at_most_one_reauth_witness :
    (∃ r c' w', demoClient.doRequest rejectedTokenEnv (0 + 1) {} "GET" "/audits" none =
        some (r, c', w') ∧
      w'.reauthCalls ≤ ({} : World).reauthCalls + 1 ∧
      w'.sent.length ≤ ({} : World).sent.length + 1 ∧
      (demoClient.doRequestPass rejectedTokenEnv {} "GET" "/audits" none).1 ≠ .retry ∧
      (w'.reauthCalls = ({} : World).reauthCalls + 1 →
        w'.sent.length = ({} : World).sent.length + 1 ∧
        ∃ e, r = (none, some (.wrap "re-authentication failed: " e)))) ∧
      (demoClient.doRequest rejectedTokenEnv (0 + 1) {} "GET" "/audits" none).map
          (fun r => (r.1, r.2.2.reauthCalls, r.2.2.sent.length)) =
        some ((none, some (.wrap "re-authentication failed: "
          (.wrap "failed to locate Watcher endpoint: " (.msg "no matching endpoint")))),
          1, 1) :=
  ⟨doRequest_at_most_one_reauth rejectedTokenEnv 0 demoClient {} "GET" "/audits" none
      (fun _ _ p h => by
        have hp : p = ⟨"tok-2", .error (.msg "no matching endpoint")⟩ := by
          simpa [rejectedTokenEnv, noEndpointEnv] using h.symm
        exact ⟨_, by rw [hp]⟩),
    by decide⟩

/-! ## Classification of errors -/

/-- C20: for every error value, `IsNotFound`, `IsConflict`, `IsUnauthorized` and
`IsForbidden` are true exactly when the error is an `APIError` whose status is 404, 409,
401 and 403 respectively (so false for nil, for any other error, also one that wraps an
`APIError`, and for any other status), and at most one of the four is true. -/
theorem error_classification (err : Option GoError) :
    (IsNotFound err = true ↔ ∃ e, err = some (.api e) ∧ e.StatusCode = 404) ∧
      (IsConflict err = true ↔ ∃ e, err = some (.api e) ∧ e.StatusCode = 409) ∧
      (IsUnauthorized err = true ↔ ∃ e, err = some (.api e) ∧ e.StatusCode = 401) ∧
      (IsForbidden err = true ↔ ∃ e, err = some (.api e) ∧ e.StatusCode = 403) ∧
      [IsNotFound err, IsConflict err, IsUnauthorized err, IsForbidden err].count true ≤ 1 := by
  rcases err with _ | (text | ⟨ctx, cause⟩ | e)
  · simp [IsNotFound, IsConflict, IsUnauthorized, IsForbidden]
  · simp [IsNotFound, IsConflict, IsUnauthorized, IsForbidden]
  · simp [IsNotFound, IsConflict, IsUnauthorized, IsForbidden]
  · simp only [IsNotFound, IsConflict, IsUnauthorized, IsForbidden, beq_iff_eq,
      Option.some.injEq, GoError.api.injEq, exists_eq_left', true_and]
    by_cases h1 : e.StatusCode = 404
    · simp [h1]
    · by_cases h2 : e.StatusCode = 409
      · simp [h2]
      · by_cases h3 : e.StatusCode = 401
        · simp [h3]
        · by_cases h4 : e.StatusCode = 403 <;> simp [h1, h2, h3, h4]

/-! ## Concurrent callers of GetToken -/

/-- A caller that runs its three steps with no other caller in between does what the
sequential `GetToken` does. -/
theorem GetToken_eq_caller_steps (env : Env) (a : Authenticator) (w : World) :
    (match Caller.step env a w .entered with
      | (c1, a1, w1) =>
        match c1.step env a1 w1 with
        | (c2, a2, w2) => c2.step env a2 w2) =
      (.returned (a.GetToken env w).1.1 (a.GetToken env w).1.2,
        (a.GetToken env w).2.1, (a.GetToken env w).2.2) := by
  by_cases hz : a.tokenExpiry.IsZero = true
  · simp [Caller.step, Authenticator.GetToken, hz]
  · by_cases hbuf : Until (env.clock w.clockReads) a.tokenExpiry < 5 * Minute
    · cases hre : a.autoReauth with
      | false => simp [Caller.step, Authenticator.GetToken, hz, hbuf, hre]
      | true =>
        rcases hA : a.Authenticate env { w with clockReads := w.clockReads + 1 } with
          ⟨err, a', w'⟩
        cases err <;> simp [Caller.step, Authenticator.GetToken, hz, hbuf, hre, hA]
    · simp [Caller.step, Authenticator.GetToken, hz, hbuf]

/-- Replacing one element of a list changes the count of a property by that element. -/
theorem countP_set_of_get (p : Caller → Bool) (l : List Caller) (i : Nat) (c c' : Caller)
    (h : l.get? i = some c) :
    (l.set i c').countP p + (if p c then 1 else 0) = l.countP p + (if p c' then 1 else 0) := by
  induction i generalizing l with
  | zero =>
    cases l with
    | nil => cases h
    | cons x rest =>
      have hx : x = c := by simpa using h
      rw [hx, List.set_cons_zero, List.countP_cons, List.countP_cons]
      omega
  | succ k ih =>
    cases l with
    | nil => cases h
    | cons x rest =>
      have hk := ih rest (by simpa using h)
      rw [List.set_cons_succ, List.countP_cons, List.countP_cons]
      omega

/-- The step of a caller that read the near-expiry token: with auto-reauth it always
authenticates, once, and is then past its check. -/
theorem Caller_step_loaded (env : Env) (a : Authenticator) (w : World) (tok : String)
    (exp : Time) (hre : a.autoReauth = true) (hz : exp.IsZero = false)
    (hnear : ∀ n, exp.nanos - (env.clock n).nanos < 5 * Minute) :
    ((Caller.loaded tok exp).step env a w).1.pastCheck = true ∧
      ((Caller.loaded tok exp).step env a w).2.1.autoReauth = true ∧
      ((Caller.loaded tok exp).step env a w).2.2.authCalls = w.authCalls + 1 := by
  have hbuf : Until (env.clock w.clockReads) exp < 5 * Minute :=
    (Until_lt_buffer_iff _ _).2 (hnear _)
  have hw := Authenticate_world env a { w with clockReads := w.clockReads + 1 }
  have hk := (Authenticate_keeps_config env a { w with clockReads := w.clockReads + 1 }).2
  rcases hA : a.Authenticate env { w with clockReads := w.clockReads + 1 } with ⟨err, a', w'⟩
  rw [hA] at hw hk
  simp only at hw hk
  cases err <;> simp [Caller.step, hz, hbuf, hre, hA, Caller.pastCheck, hk, hw]

/-- The step of a caller that is past its check touches neither the authenticator nor
the counters, and the caller stays past its check. -/
theorem Caller_step_pastCheck (env : Env) (a : Authenticator) (w : World) (c : Caller)
    (hc : c.pastCheck = true) :
    (c.step env a w).1.pastCheck = true ∧ (c.step env a w).2 = (a, w) := by
  cases c with
  | entered => simp [Caller.pastCheck] at hc
  | loaded t e => simp [Caller.pastCheck] at hc
  | refreshed => simp [Caller.step, Caller.pastCheck]
  | returned t e => simp [Caller.step, Caller.pastCheck]

/-- One scheduled step keeps the accounting: auto-reauth stays on, every caller either
still holds the near-expiry locals or is past its check, and the number of
`Authenticate` calls is the number of callers past their check. -/
theorem Callers_step_accounting (env : Env) (tok : String) (exp : Time) (base : Nat)
    (hz : exp.IsZero = false) (hnear : ∀ n, exp.nanos - (env.clock n).nanos < 5 * Minute)
    (sys : Callers) (i : Nat) (h1 : sys.auth.autoReauth = true)
    (h2 : ∀ c ∈ sys.callers, c = .loaded tok exp ∨ c.pastCheck = true)
    (h3 : sys.world.authCalls = base + sys.callers.countP Caller.pastCheck) :
    (sys.step env i).auth.autoReauth = true ∧
      (∀ c ∈ (sys.step env i).callers, c = .loaded tok exp ∨ c.pastCheck = true) ∧
      (sys.step env i).world.authCalls =
        base + (sys.step env i).callers.countP Caller.pastCheck ∧
      (sys.step env i).callers.length = sys.callers.length := by
  unfold Callers.step
  cases hg : sys.callers.get? i with
  | none => exact ⟨h1, h2, h3, rfl⟩
  | some c =>
    have hmem : c ∈ sys.callers := List.get?_mem hg
    rcases hs : c.step env sys.auth sys.world with ⟨c', a', w'⟩
    have hcount := countP_set_of_get Caller.pastCheck sys.callers i c c' hg
    simp only [hs, List.length_set]
    rcases h2 c hmem with hl | hp
    · subst hl
      obtain ⟨hp', hre', hw'⟩ := Caller_step_loaded env sys.auth sys.world tok exp h1 hz hnear
      rw [hs] at hp' hre' hw'
      simp only at hp' hre' hw'
      refine ⟨hre', fun x hx => ?_, ?_, trivial⟩
      · rcases List.mem_or_eq_of_mem_set hx with h | h
        · exact h2 x h
        · exact Or.inr (h ▸ hp')
      · have hl : Caller.pastCheck (.loaded tok exp) = false := rfl
        rw [hp', hl] at hcount
        simp only [if_true, Bool.false_eq_true, if_false] at hcount
        omega
    · obtain ⟨hp', hsame⟩ := Caller_step_pastCheck env sys.auth sys.world c hp
      rw [hs] at hp' hsame
      simp only [Prod.mk.injEq] at hp' hsame
      obtain ⟨rfl, rfl⟩ := hsame
      refine ⟨h1, fun x hx => ?_, ?_, trivial⟩
      · rcases List.mem_or_eq_of_mem_set hx with h | h
        · exact h2 x h
        · exact Or.inr (h ▸ hp')
      · rw [hp', hp] at hcount
        simp only [if_true] at hcount
        omega

/-- The accounting holds after any schedule. -/
theorem Callers_run_accounting (env : Env) (tok : String) (exp : Time) (base : Nat)
    (hz : exp.IsZero = false) (hnear : ∀ n, exp.nanos - (env.clock n).nanos < 5 * Minute)
    (schedule : List Nat) (sys : Callers) (h1 : sys.auth.autoReauth = true)
    (h2 : ∀ c ∈ sys.callers, c = .loaded tok exp ∨ c.pastCheck = true)
    (h3 : sys.world.authCalls = base + sys.callers.countP Caller.pastCheck) :
    (sys.run env schedule).world.authCalls =
        base + (sys.run env schedule).callers.countP Caller.pastCheck ∧
      (sys.run env schedule).callers.length = sys.callers.length := by
  induction schedule generalizing sys with
  | nil => exact ⟨h3, rfl⟩
  | cons i schedule ih =>
    obtain ⟨g1, g2, g3, g4⟩ := Callers_step_accounting env tok exp base hz hnear sys i h1 h2 h3
    have := ih (sys.step env i) g1 g2 g3
    simp only [Callers.run, List.foldl_cons] at this ⊢
    exact ⟨this.1, this.2.trans g4⟩

/-- Every step of a caller that has not returned brings it further. -/
theorem Caller_step_progress (env : Env) (a : Authenticator) (w : World) (c : Caller) :
    min 3 (c.progress + 1) ≤ (c.step env a w).1.progress := by
  cases c with
  | entered => simp [Caller.step, Caller.progress]
  | loaded t e =>
    unfold Caller.step
    simp only
    split_ifs
    · simp [Caller.progress]
    · split <;> simp [Caller.progress]
    · simp [Caller.progress]
    · simp [Caller.progress]
  | refreshed => simp [Caller.step, Caller.progress]
  | returned t e => simp [Caller.step, Caller.progress]

/-- A caller scheduled `k` times has come at least `k` steps further (or has returned). -/
theorem Callers_run_progress (env : Env) (schedule : List Nat) (sys : Callers) (i : Nat)
    (c0 : Caller) (h : sys.callers.get? i = some c0) :
    ∃ c, (sys.run env schedule).callers.get? i = some c ∧
      min 3 (c0.progress + schedule.count i) ≤ c.progress := by
  induction schedule generalizing sys c0 with
  | nil => exact ⟨c0, h, by simp⟩
  | cons j schedule ih =>
    simp only [Callers.run, List.foldl_cons]
    by_cases hj : j = i
    · subst hj
      have hstep : (sys.step env j).callers.get? j =
          some (c0.step env sys.auth sys.world).1 := by
        have h' : sys.callers[j]? = some c0 := by rwa [List.get?_eq_getElem?] at h
        unfold Callers.step
        rw [h]
        simp only [List.get?_eq_getElem?, List.getElem?_set_self', h', Option.map_eq_map,
          Option.map_some', Function.const]
      obtain ⟨c, hc, hp⟩ := ih (sys.step env j) _ hstep
      refine ⟨c, hc, ?_⟩
      have := Caller_step_progress env sys.auth sys.world c0
      rw [List.count_cons_self]
      omega
    · have hstep : (sys.step env j).callers.get? i = some c0 := by
        unfold Callers.step
        cases hg : sys.callers.get? j with
        | none => exact h
        | some cj =>
          have h' : sys.callers[i]? = some c0 := by rwa [List.get?_eq_getElem?] at h
          simp only [List.get?_eq_getElem?, List.getElem?_set_ne hj, h']
      obtain ⟨c, hc, hp⟩ := ih (sys.step env j) c0 hstep
      refine ⟨c, hc, ?_⟩
      rw [List.count_cons_of_ne (fun e => hj e.symm)]
      exact hp

/-- Tokens issued earlier in a round stay issued as the round goes on. -/
theorem issuedBetween_mono (env : Env) (opts : AuthOptions) (lo hi hi2 : Nat) (t : String)
    (h : hi ≤ hi2) (hi1 : issuedBetween env opts lo hi t) : issuedBetween env opts lo hi2 t := by
  obtain ⟨k, p, h1, h2, h3, h4⟩ := hi1
  exact ⟨k, p, h1, by omega, h3, h4⟩

/-- What is expected of a caller stays true as the round goes on. -/
theorem Caller_inRound_mono (env : Env) (opts : AuthOptions) (lo hi hi2 : Nat) (tok : String)
    (exp : Time) (c : Caller) (h : hi ≤ hi2) (hc : c.inRound env opts lo hi tok exp) :
    c.inRound env opts lo hi2 tok exp := by
  cases c with
  | entered => exact hc
  | loaded t e => exact hc
  | refreshed => exact hc
  | returned t e =>
    rcases hc with ⟨h1, h2⟩ | h2
    · exact Or.inl ⟨h1, issuedBetween_mono env opts lo hi hi2 t h h2⟩
    · exact Or.inr h2

/-- The token cached after `Authenticate` is the one cached before, when the identity
exchange failed, or the one that exchange issued. -/
theorem Authenticate_token (env : Env) (a : Authenticator) (w : World) :
    ((∃ e, (env.identity w.authCalls a.authOptions).AuthenticatedClient = .error e) ∧
        (a.Authenticate env w).2.1.token = a.token ∧ (a.Authenticate env w).1 ≠ none) ∨
      ∃ p, (env.identity w.authCalls a.authOptions).AuthenticatedClient = .ok p ∧
        (a.Authenticate env w).2.1.token = p.TokenID := by
  cases hc : (env.identity w.authCalls a.authOptions).AuthenticatedClient with
  | error e =>
    refine Or.inl ⟨⟨e, rfl⟩, ?_, ?_⟩
    · rw [Authenticate_exchange_error env a w e hc]
    · rw [Authenticate_exchange_error env a w e hc]
      simp
  | ok p =>
    refine Or.inr ⟨p, rfl, ?_⟩
    cases hp : p.EndpointLocator with
    | error e =>
      rw [Authenticate_locate_error env a w p e hc hp]
      show (Authenticator.updateTokenExpiry _ _).2.token = _
      rw [updateTokenExpiry_frame]
    | ok ep =>
      rw [Authenticate_success env a w p ep hc hp]
      show (Authenticator.updateTokenExpiry _ _).2.token = _
      rw [updateTokenExpiry_frame]

/-- One scheduled step keeps what is expected of the round: the options and the
auto-reauth flag stay, every caller is as `Caller.inRound` says, and while some caller
is between its `Authenticate` and its second read the cached token is one issued in
this round. -/
theorem Callers_step_inRound (env : Env) (opts : AuthOptions) (tok : String) (exp : Time)
    (base : Nat) (hz : exp.IsZero = false)
    (hnear : ∀ n, exp.nanos - (env.clock n).nanos < 5 * Minute)
    (sys : Callers) (i : Nat) (h1 : sys.auth.autoReauth = true)
    (h2 : sys.auth.authOptions = opts) (h3 : base ≤ sys.world.authCalls)
    (h4 : ∀ c ∈ sys.callers, c.inRound env opts base sys.world.authCalls tok exp)
    (h5 : Caller.refreshed ∈ sys.callers →
      issuedBetween env opts base sys.world.authCalls sys.auth.token) :
    (sys.step env i).auth.autoReauth = true ∧
      (sys.step env i).auth.authOptions = opts ∧
      base ≤ (sys.step env i).world.authCalls ∧
      (∀ c ∈ (sys.step env i).callers,
        c.inRound env opts base (sys.step env i).world.authCalls tok exp) ∧
      (Caller.refreshed ∈ (sys.step env i).callers →
        issuedBetween env opts base (sys.step env i).world.authCalls
          (sys.step env i).auth.token) := by
  unfold Callers.step
  cases hg : sys.callers.get? i with
  | none => exact ⟨h1, h2, h3, h4, h5⟩
  | some c =>
    have hmem : c ∈ sys.callers := List.get?_mem hg
    have hc := h4 c hmem
    cases c with
    | entered => exact absurd hc (by simp [Caller.inRound])
    | refreshed =>
      simp only [Caller.step]
      have hiss := h5 hmem
      refine ⟨h1, h2, h3, fun x hx => ?_, fun hx => ?_⟩
      · rcases List.mem_or_eq_of_mem_set hx with h | h
        · exact h4 x h
        · rw [h]
          exact Or.inl ⟨rfl, hiss⟩
      · exact hiss
    | returned t e =>
      simp only [Caller.step]
      refine ⟨h1, h2, h3, fun x hx => ?_, fun hx => ?_⟩
      · rcases List.mem_or_eq_of_mem_set hx with h | h
        · exact h4 x h
        · rw [h]
          exact hc
      · rcases List.mem_or_eq_of_mem_set hx with h | h
        · exact h5 h
        · cases h
    | loaded t e =>
      obtain ⟨rfl, rfl⟩ := hc
      have hbuf : Until (env.clock sys.world.clockReads) e < 5 * Minute :=
        (Until_lt_buffer_iff _ _).2 (hnear _)
      have hw := Authenticate_world env sys.auth
        { sys.world with clockReads := sys.world.clockReads + 1 }
      have hk := Authenticate_keeps_config env sys.auth
        { sys.world with clockReads := sys.world.clockReads + 1 }
      have ht := Authenticate_token env sys.auth
        { sys.world with clockReads := sys.world.clockReads + 1 }
      rcases hA : sys.auth.Authenticate env
        { sys.world with clockReads := sys.world.clockReads + 1 } with ⟨err, a2, w2⟩
      rw [hA] at hw hk ht
      simp only at hw hk ht
      subst hw
      rw [h2] at ht
      have hnew : (∃ p, (env.identity sys.world.authCalls opts).AuthenticatedClient = .ok p ∧
          a2.token = p.TokenID) → issuedBetween env opts base (sys.world.authCalls + 1)
            a2.token := by
        rintro ⟨p, hp1, hp2⟩
        exact ⟨sys.world.authCalls, p, h3, Nat.lt_succ_self _, hp1, hp2⟩
      have hold : ∀ x ∈ sys.callers,
          x.inRound env opts base (sys.world.authCalls + 1) t e := fun x hx =>
        Caller_inRound_mono env opts base _ _ t e x (Nat.le_succ _) (h4 x hx)
      cases err with
      | some er =>
        simp only [Caller.step, hz, hbuf, h1, hA, Bool.false_eq_true, if_false, if_true]
        refine ⟨by rw [hk.2, h1], by rw [hk.1, h2], Nat.le_succ_of_le h3,
          fun x hx => ?_, fun hx => ?_⟩
        · rcases List.mem_or_eq_of_mem_set hx with h | h
          · exact hold x h
          · rw [h]
            exact Or.inr ⟨rfl, er, rfl⟩
        · rcases List.mem_or_eq_of_mem_set hx with h | h
          · rcases ht with ⟨-, htok, -⟩ | hp
            · show issuedBetween env opts base (sys.world.authCalls + 1) a2.token
              rw [htok]
              exact issuedBetween_mono env opts base _ _ _ (Nat.le_succ _) (h5 h)
            · exact hnew hp
          · cases h
      | none =>
        simp only [Caller.step, hz, hbuf, h1, hA, Bool.false_eq_true, if_false, if_true]
        have hiss : issuedBetween env opts base (sys.world.authCalls + 1) a2.token := by
          rcases ht with ⟨-, -, hne⟩ | hp
          · exact absurd rfl hne
          · exact hnew hp
        refine ⟨by rw [hk.2, h1], by rw [hk.1, h2], Nat.le_succ_of_le h3,
          fun x hx => ?_, fun _ => hiss⟩
        rcases List.mem_or_eq_of_mem_set hx with h | h
        · exact hold x h
        · rw [h]
          exact trivial

/-- What is expected of the round holds after any schedule. -/
theorem Callers_run_inRound (env : Env) (opts : AuthOptions) (tok : String) (exp : Time)
    (base : Nat) (hz : exp.IsZero = false)
    (hnear : ∀ n, exp.nanos - (env.clock n).nanos < 5 * Minute)
    (schedule : List Nat) (sys : Callers) (h1 : sys.auth.autoReauth = true)
    (h2 : sys.auth.authOptions = opts) (h3 : base ≤ sys.world.authCalls)
    (h4 : ∀ c ∈ sys.callers, c.inRound env opts base sys.world.authCalls tok exp)
    (h5 : Caller.refreshed ∈ sys.callers →
      issuedBetween env opts base sys.world.authCalls sys.auth.token) :
    ∀ c ∈ (sys.run env schedule).callers,
      c.inRound env opts base (sys.run env schedule).world.authCalls tok exp := by
  induction schedule generalizing sys with
  | nil => exact h4
  | cons i schedule ih =>
    obtain ⟨g1, g2, g3, g4, g5⟩ :=
      Callers_step_inRound env opts tok exp base hz hnear sys i h1 h2 h3 h4 h5
    have := ih (sys.step env i) g1 g2 g3 g4 g5
    simp only [Callers.run, List.foldl_cons] at this ⊢
    exact this

/-- C19, as stated, fails: two callers of `GetToken` on the scenario authenticator (four
minutes before expiry, auto-reauth on) both read the near-expiry token, then each takes
the exclusive lock in turn. The identity service issues `tok-2` with an hour to live and
the first caller's `Authenticate` caches it, yet two `Authenticate` calls are made: the
second caller does not look at the expiry again. The endpoint lookup fails in both
calls, so both callers return the wrapped error. -/
theorem concurrent_GetToken_counterexample :
    ((Callers.run noEndpointEnv ⟨demoAuth, {}, [.entered, .entered]⟩
          [0, 1]).callers = [.loaded "tok-1" ⟨t2024 + 10 * Minute⟩,
            .loaded "tok-1" ⟨t2024 + 10 * Minute⟩]) ∧
      (Callers.run noEndpointEnv ⟨demoAuth, {}, [.entered, .entered]⟩
          [0, 1, 0]).auth.token = "tok-2" ∧
      (Callers.run noEndpointEnv ⟨demoAuth, {}, [.entered, .entered]⟩
          [0, 1, 0]).auth.tokenExpiry = ⟨t2024 + 60 * Minute⟩ ∧
      (Callers.run noEndpointEnv ⟨demoAuth, {}, [.entered, .entered]⟩
          [0, 1, 0]).world.authCalls = 1 ∧
      (Callers.run noEndpointEnv ⟨demoAuth, {}, [.entered, .entered]⟩
          [0, 1, 0, 1]).world.authCalls = 2 ∧
      (Callers.run noEndpointEnv ⟨demoAuth, {}, [.entered, .entered]⟩
          [0, 1, 0, 1]).callers =
        [.returned "" (some (.wrap "failed to re-authenticate: "
            (.wrap "failed to locate Watcher endpoint: " (.msg "no matching endpoint")))),
          .returned "" (some (.wrap "failed to re-authenticate: "
            (.wrap "failed to locate Watcher endpoint: " (.msg "no matching endpoint"))))] := by
  decide

/-- C19 (amended): `N` callers of `GetToken` on one authenticator with auto-reauth have
all read the same near-expiry token (less than five minutes remain at every reading of
the clock) before any of them refreshes. Under every schedule that lets each caller
take its two remaining steps, all callers return and exactly `N` `Authenticate` calls
have been made, one per caller: no caller looks at the expiry again after another has
refreshed. A caller whose `Authenticate` succeeded returns, with no error, the token
cached when it reads the authenticator again, and that is a token issued by one of the
`N` identity exchanges of the round; a caller whose `Authenticate` failed returns the
empty token and that error wrapped in `failed to re-authenticate: `. -/
theorem concurrent_GetToken_authenticates_each (env : Env) (a : Authenticator) (w : World)
    (N : Nat) (schedule : List Nat) (hre : a.autoReauth = true)
    (hz : a.tokenExpiry.IsZero = false)
    (hnear : ∀ n, a.tokenExpiry.nanos - (env.clock n).nanos < 5 * Minute)
    (hsched : ∀ i, i < N → 2 ≤ schedule.count i) :
    (∀ c ∈ (Callers.run env ⟨a, w, List.replicate N (.loaded a.token a.tokenExpiry)⟩
        schedule).callers, c.hasReturned = true) ∧
      (Callers.run env ⟨a, w, List.replicate N (.loaded a.token a.tokenExpiry)⟩
        schedule).callers.length = N ∧
      (Callers.run env ⟨a, w, List.replicate N (.loaded a.token a.tokenExpiry)⟩
        schedule).world.authCalls = w.authCalls + N ∧
      (∀ t e, Caller.returned t e ∈
          (Callers.run env ⟨a, w, List.replicate N (.loaded a.token a.tokenExpiry)⟩
            schedule).callers →
        (e = none ∧ issuedBetween env a.authOptions w.authCalls (w.authCalls + N) t) ∨
          (t = "" ∧ ∃ err, e = some (.wrap "failed to re-authenticate: " err))) ∧
      (∀ a2 w2, Caller.step env a2 w2 .refreshed = (.returned a2.token none, a2, w2)) := by
  have hinit : ∀ c ∈ List.replicate N (Caller.loaded a.token a.tokenExpiry),
      c = .loaded a.token a.tokenExpiry ∨ c.pastCheck = true :=
    fun c hc => Or.inl (List.eq_of_mem_replicate hc)
  have hcount0 : (List.replicate N (Caller.loaded a.token a.tokenExpiry)).countP
      Caller.pastCheck = 0 := by
    rw [List.countP_eq_zero]
    intro c hc
    rw [List.eq_of_mem_replicate hc]
    simp [Caller.pastCheck]
  obtain ⟨hacc, hlen⟩ := Callers_run_accounting env a.token a.tokenExpiry w.authCalls hz hnear
    schedule ⟨a, w, List.replicate N (.loaded a.token a.tokenExpiry)⟩ hre hinit
    (by simp only [hcount0]; rfl)
  simp only [List.length_replicate] at hlen
  have hret : ∀ c ∈ (Callers.run env ⟨a, w, List.replicate N (.loaded a.token a.tokenExpiry)⟩
      schedule).callers, c.hasReturned = true := by
    intro c hc
    obtain ⟨i, hi⟩ := List.mem_iff_get?.1 hc
    have hiN : i < N := by
      have := (List.get?_eq_some.1 hi).1
      omega
    have h0 : (List.replicate N (Caller.loaded a.token a.tokenExpiry)).get? i =
        some (.loaded a.token a.tokenExpiry) := by
      rw [List.get?_eq_getElem?, List.getElem?_replicate_of_lt hiN]
    obtain ⟨c', hc', hp⟩ := Callers_run_progress env schedule
      ⟨a, w, List.replicate N (.loaded a.token a.tokenExpiry)⟩ i _ h0
    rw [hi] at hc'
    cases hc'
    have h2 := hsched i hiN
    simp only [Caller.progress] at hp
    cases c <;> simp [Caller.progress] at hp <;> first | rfl | omega
  have hall : (Callers.run env ⟨a, w, List.replicate N (.loaded a.token a.tokenExpiry)⟩
      schedule).callers.countP Caller.pastCheck = N := by
    refine (List.countP_eq_length.2 fun c hc => ?_).trans hlen
    have := hret c hc
    cases c <;> first | rfl | simp [Caller.hasReturned] at this
  rw [hall] at hacc
  have hround := Callers_run_inRound env a.authOptions a.token a.tokenExpiry w.authCalls hz
    hnear schedule ⟨a, w, List.replicate N (.loaded a.token a.tokenExpiry)⟩ hre rfl
    (Nat.le_refl _)
    (fun c hc => by
      rw [List.eq_of_mem_replicate hc]
      exact ⟨rfl, rfl⟩)
    (fun hc => Caller.noConfusion (List.eq_of_mem_replicate hc))
  rw [hacc] at hround
  exact ⟨hret, hlen, hacc, fun t e hmem => hround _ hmem, fun _ _ => rfl⟩

/-- Witness for C19 (amended): three callers on the scenario authenticator, each
scheduled twice in turn, against an identity service whose endpoint lookup fails. -/
theorem concurrent_GetToken_authenticates_each_witness :
    (∀ c ∈ (Callers.run noEndpointEnv
        ⟨demoAuth, {}, List.replicate 3 (.loaded demoAuth.token demoAuth.tokenExpiry)⟩
        [0, 1, 2, 0, 1, 2]).callers, c.hasReturned = true) ∧
      (Callers.run noEndpointEnv
        ⟨demoAuth, {}, List.replicate 3 (.loaded demoAuth.token demoAuth.tokenExpiry)⟩
        [0, 1, 2, 0, 1, 2]).callers.length = 3 ∧
      (Callers.run noEndpointEnv
        ⟨demoAuth, {}, List.replicate 3 (.loaded demoAuth.token demoAuth.tokenExpiry)⟩
        [0, 1, 2, 0, 1, 2]).world.authCalls = ({} : World).authCalls + 3 ∧
      (∀ t e, Caller.returned t e ∈ (Callers.run noEndpointEnv
          ⟨demoAuth, {}, List.replicate 3 (.loaded demoAuth.token demoAuth.tokenExpiry)⟩
          [0, 1, 2, 0, 1, 2]).callers →
        (e = none ∧ issuedBetween noEndpointEnv demoAuth.authOptions ({} : World).authCalls
            (({} : World).authCalls + 3) t) ∨
          (t = "" ∧ ∃ err, e = some (.wrap "failed to re-authenticate: " err))) ∧
      (∀ a2 w2, Caller.step noEndpointEnv a2 w2 .refreshed =
        (.returned a2.token none, a2, w2)) :=
  concurrent_GetToken_authenticates_each noEndpointEnv demoAuth {} 3
    [0, 1, 2, 0, 1, 2] rfl rfl
    (fun _ => (by decide : demoAuth.tokenExpiry.nanos - (t2024 + 6 * Minute) < 5 * Minute))
    (fun i hi => by
      have : i = 0 ∨ i = 1 ∨ i = 2 := by omega
      rcases this with rfl | rfl | rfl <;> decide)

/-! ## Client configuration, version query and query strings -/

/-- C21: the client returned by `NewClientWithToken endpoint token` has endpoint
`endpoint` followed by `/v1`, API version `v1` and timeout thirty seconds; on any client
(so also afterwards) `SetAPIVersion v` makes `GetAPIVersion` return `v` and `SetTimeout d`
makes `GetTimeout` return `d`, and neither changes the endpoint. -/
theorem NewClientWithToken_config (endpoint token v : String) (d : Int) (c : Client) :
    (NewClientWithToken endpoint token).GetEndpoint = endpoint ++ "/v1" ∧
      (NewClientWithToken endpoint token).GetAPIVersion = "v1" ∧
      (NewClientWithToken endpoint token).GetTimeout = 30 * Second ∧
      (c.SetAPIVersion v).GetAPIVersion = v ∧
      (c.SetAPIVersion v).GetEndpoint = c.GetEndpoint ∧
      (c.SetAPIVersion v).GetTimeout = c.GetTimeout ∧
      (c.SetTimeout d).GetTimeout = d ∧
      (c.SetTimeout d).GetEndpoint = c.GetEndpoint ∧
      (c.SetTimeout d).GetAPIVersion = c.GetAPIVersion := by
  refine ⟨?_, rfl, rfl, rfl, rfl, rfl, rfl, rfl, rfl⟩
  show endpoint ++ "/" ++ "v1" = endpoint ++ "/v1"
  rw [String.append_assoc]
  rfl

/-- The bytes of a concatenation. -/
theorem utf8Bytes_append (a b : String) : utf8Bytes (a ++ b) = utf8Bytes a ++ utf8Bytes b := by
  simp [utf8Bytes, String.data_append, List.flatMap_append]

/-- With an API version of two bytes, as `v1` or `v2`, the slice of `GetVersion` is in
range and gives back the endpoint the client was constructed from. -/
theorem baseEndpoint_two_byte_version (endpoint token v : String) (hv : goLen v = 2) :
    ((NewClientWithToken endpoint token).SetAPIVersion v).baseEndpoint =
      some (utf8Bytes endpoint) := by
  have he : utf8Bytes (endpoint ++ "/" ++ DefaultAPIVersion) =
      utf8Bytes endpoint ++ [47, 118, 49] := by
    rw [String.append_assoc, utf8Bytes_append]
    rfl
  have hl : (utf8Bytes ("/" ++ v)).length = 3 := by
    unfold goLen at hv
    rw [utf8Bytes_append]
    have : utf8Bytes "/" = [47] := rfl
    simp [this, hv]
  simp only [Client.baseEndpoint, Client.SetAPIVersion, NewClientWithToken, goLen, hl, he,
    List.length_append, List.length_cons, List.length_nil]
  have hnn : ¬ (((utf8Bytes endpoint).length + (0 + 1 + 1 + 1) : Nat) : Int) - ((3 : Nat) : Int) < 0 := by
    omega
  rw [if_neg hnn]
  have hh : ((((utf8Bytes endpoint).length + (0 + 1 + 1 + 1) : Nat) : Int) - ((3 : Nat) : Int)).toNat =
      (utf8Bytes endpoint).length := by omega
  rw [hh, List.take_left']
  rfl

/-- Witness: the versions `v1` and `v2` of the repository's test. -/
theorem baseEndpoint_two_byte_version_witness :
    ((NewClientWithToken "http://localhost:9322" "test-token").SetAPIVersion "v2").baseEndpoint =
      some (utf8Bytes "http://localhost:9322") :=
  baseEndpoint_two_byte_version "http://localhost:9322" "test-token" "v2" rfl

/-- C22 (evaluation at the failing inputs): after `SetAPIVersion "v1.4"` on the client
for `http://localhost:9322`, `GetVersion` cuts five bytes off `http://localhost:9322/v1`
and requests `http://localhost:93/`, not `http://localhost:9322/`; on a client
constructed from the empty endpoint the slice bound is `3 - 5 = -2` and the slice
panics. With the default version the URL is the constructed endpoint followed by `/`. -/
theorem GetVersion_base_after_SetAPIVersion :
    ((NewClientWithToken "http://localhost:9322" "t").SetAPIVersion "v1.4").GetVersionURL =
        some (utf8Bytes "http://localhost:93/") ∧
      ((NewClientWithToken "" "t").SetAPIVersion "v1.4").baseEndpoint = none ∧
      ((NewClientWithToken "" "t").SetAPIVersion "v1.4").GetVersionURL = none ∧
      (NewClientWithToken "http://localhost:9322" "t").GetVersionURL =
        some (utf8Bytes "http://localhost:9322/") := by
  decide

/-- A decimal digit is written as one byte that `QueryEscape` leaves alone. -/
theorem escape_digit (c : Char) (h : 48 ≤ c.toNat ∧ c.toNat ≤ 57) :
    (utf8Char c).flatMap escapeByte = [c] := by
  have h128 : c.toNat < 128 := by omega
  have hs : shouldEscape c.toNat = false := by
    have h3 : (decide (48 ≤ c.toNat) && decide (c.toNat ≤ 57)) = true := by simp [h.1, h.2]
    simp [shouldEscape, h3]
  simp [utf8Char, h128, escapeByte, hs]

/-- A string of decimal digits is its own `QueryEscape`. -/
theorem QueryEscape_digits (l : List Char) (h : ∀ c ∈ l, 48 ≤ c.toNat ∧ c.toNat ≤ 57) :
    QueryEscape ⟨l⟩ = ⟨l⟩ := by
  unfold QueryEscape utf8Bytes
  congr 1
  induction l with
  | nil => rfl
  | cons c l ih =>
    simp only [List.flatMap_cons, List.flatMap_append]
    rw [escape_digit c (h c (List.mem_cons_self _ _)),
      ih fun x hx => h x (List.mem_cons_of_mem _ hx)]
    rfl

/-- The characters `Nat.digitChar` gives for the digits below ten. -/
theorem digitChar_digit (m : Nat) (h : m < 10) :
    48 ≤ (Nat.digitChar m).toNat ∧ (Nat.digitChar m).toNat ≤ 57 := by
  interval_cases m <;> decide

/-- Only decimal digits are produced when a number is written in base ten. -/
theorem toDigitsCore_digits (fuel n : Nat) (ds : List Char)
    (h : ∀ c ∈ ds, 48 ≤ c.toNat ∧ c.toNat ≤ 57) :
    ∀ c ∈ Nat.toDigitsCore 10 fuel n ds, 48 ≤ c.toNat ∧ c.toNat ≤ 57 := by
  induction fuel generalizing n ds with
  | zero => exact h
  | succ fuel ih =>
    have hd := digitChar_digit (n % 10) (Nat.mod_lt _ (by decide))
    have hcons : ∀ c ∈ Nat.digitChar (n % 10) :: ds, 48 ≤ c.toNat ∧ c.toNat ≤ 57 := by
      intro c hc
      rcases List.mem_cons.1 hc with rfl | hc
      · exact hd
      · exact h c hc
    unfold Nat.toDigitsCore
    simp only
    split_ifs
    · exact hcons
    · exact ih _ _ hcons

/-- The decimal form of a positive limit needs no escaping. -/
theorem QueryEscape_formatDecimal (n : Int) (h : 0 < n) :
    QueryEscape (formatDecimal n) = formatDecimal n := by
  obtain ⟨m, rfl⟩ : ∃ m : Nat, n = Int.ofNat m := ⟨n.toNat, by simp; omega⟩
  show QueryEscape ⟨Nat.toDigits 10 m⟩ = ⟨Nat.toDigits 10 m⟩
  exact QueryEscape_digits _ (toDigitsCore_digits _ _ _ (by simp))

/-- The query string built by `buildQueryString` from non-nil options is empty when no
pair is due, and otherwise `?` followed by the due pairs joined by `&`. -/
theorem buildQueryString_eq_expected (o : ListOptions) :
    buildQueryString (some o) =
      if expectedPairs o = [] then "" else "?" ++ "&".intercalate (expectedPairs o) := by
  have k1 : QueryEscape "limit" = "limit" := by decide
  have k2 : QueryEscape "marker" = "marker" := by decide
  have k3 : QueryEscape "sort_key" = "sort_key" := by decide
  have k4 : QueryEscape "sort_dir" = "sort_dir" := by decide
  by_cases h1 : o.Limit > 0 <;> by_cases h2 : o.Marker = "" <;>
    by_cases h3 : o.SortKey = "" <;> by_cases h4 : o.SortDir = "" <;>
    simp +decide [buildQueryString, expectedPairs, h1, h2, h3, h4, Values.Add, Values.Encode,
      Values.get, List.insertionSort, List.orderedInsert, String.intercalate,
      String.intercalate.go, k1, k2, k3, k4, String.append_assoc,
      QueryEscape_formatDecimal] <;>
    rfl

/-- C23: `buildQueryString` returns the empty string exactly when the options are nil or
have `Limit <= 0` and empty `Marker`, `SortKey` and `SortDir`; otherwise it returns `?`
followed by the `key=value` pairs joined by `&`, in the order limit, marker, sort_dir,
sort_key, for exactly the fields that are set: the limit in decimal and only when
positive, the other values URL-escaped. -/
theorem buildQueryString_spec (opts : Option ListOptions) :
    (buildQueryString opts = "" ↔
        opts = none ∨ ∃ o, opts = some o ∧
          o.Limit ≤ 0 ∧ o.Marker = "" ∧ o.SortKey = "" ∧ o.SortDir = "") ∧
      (∀ o, opts = some o →
        (0 < o.Limit ∨ o.Marker ≠ "" ∨ o.SortKey ≠ "" ∨ o.SortDir ≠ "") →
        buildQueryString opts = "?" ++ "&".intercalate (expectedPairs o)) := by
  have hnil : ∀ o : ListOptions, expectedPairs o = [] ↔
      (o.Limit ≤ 0 ∧ o.Marker = "" ∧ o.SortKey = "" ∧ o.SortDir = "") := by
    intro o
    unfold expectedPairs
    by_cases h1 : o.Limit > 0 <;> by_cases h2 : o.Marker = "" <;>
      by_cases h3 : o.SortKey = "" <;> by_cases h4 : o.SortDir = "" <;>
      (simp [h1, h2, h3, h4]; try omega)
  have hne : ∀ x : String, "?" ++ x ≠ "" := by
    intro x h
    have := congrArg String.length h
    rw [String.length_append] at this
    have h1 : "?".length = 1 := rfl
    have h0 : "".length = 0 := rfl
    omega
  cases opts with
  | none => exact ⟨by simp [buildQueryString], fun o h => by cases h⟩
  | some o =>
    rw [buildQueryString_eq_expected]
    constructor
    · by_cases hp : expectedPairs o = []
      · simp only [hp, if_true, true_iff]
        exact Or.inr ⟨o, rfl, (hnil o).1 hp⟩
      · simp only [hp, if_false]
        constructor
        · intro h
          exact absurd h (hne _)
        · rintro (h | ⟨o', ho', h⟩)
          · cases h
          · cases ho'
            exact absurd ((hnil o).2 h) hp
    · intro o' ho' hset
      cases ho'
      have hp : expectedPairs o ≠ [] := by
        intro h
        have := (hnil o).1 h
        rcases hset with h | h | h | h
        · omega
        · exact h this.2.1
        · exact h this.2.2.1
        · exact h this.2.2.2
      rw [if_neg hp]

/-- Witness for C23: all four fields set, with a marker that needs escaping. -/
theorem buildQueryString_spec_witness :
    buildQueryString (some { Limit := 10, Marker := "a b/é", SortKey := "name", SortDir := "asc" }) =
        "?" ++ "&".intercalate
          (expectedPairs { Limit := 10, Marker := "a b/é", SortKey := "name", SortDir := "asc" }) ∧
      buildQueryString (some { Limit := 10, Marker := "a b/é", SortKey := "name", SortDir := "asc" }) =
        "?limit=10&marker=a+b%2F%C3%A9&sort_dir=asc&sort_key=name" :=
  ⟨(buildQueryString_spec
      (some { Limit := 10, Marker := "a b/é", SortKey := "name", SortDir := "asc" })).2 _ rfl
      (Or.inl (by decide)),
    by decide⟩

end Watcherclient
